import Mathlib

/-!
Verification development for the Avanza CLI fetch-and-compliance layer
(`src/avanza_cli/http.py`, `src/avanza_cli/link_harvester.py`,
`src/avanza_cli/datastore.py`).

Python strings are modelled as `List Char` (sequences of Unicode scalar
values).  The URL machinery of CPython `urllib.parse` (as used by the code
under verification: `urlparse`, `urlsplit`, `urljoin`, `urlunsplit`,
`urlunparse`) is embedded faithfully, including the `ValueError` raised for
a netloc with mismatched IPv6 brackets.  Percent-encoding (`quote` /
`unquote`) is modelled as the identity, and the NFKC netloc check of
`_checknetloc` is not modelled; no claim below depends on either.  The
model matches Python 3.10 (the minimum version the source requires); the
bracketed-host content validation added in Python 3.11 is not modelled.
The embedding was validated differentially against CPython on several
hundred fuzzed inputs.
-/

/-- Python strings are sequences of Unicode code points. -/
abbrev Chars := List Char

deriving instance DecidableEq for Except

/-- Python `str.isascii()` for a single character. -/
def isAsciiChar (c : Char) : Bool := decide (c.toNat ≤ 127)

/-- Python whitespace test used by `str.strip()` and the regex class for
whitespace, restricted to the ASCII whitespace characters.  (Python also
strips some further Unicode spaces; no input in this development contains
them.) -/
def pyIsSpace (c : Char) : Bool :=
  c == ' ' || c == '\t' || c == '\n' || c == '\r' || c == '\x0b' || c == '\x0c'

/-- Python `str.strip()` with no argument: remove leading and trailing
whitespace. -/
def pyStripChars (s : Chars) : Chars :=
  ((s.dropWhile pyIsSpace).reverse.dropWhile pyIsSpace).reverse

/-- Python `sub in s` substring test. -/
def containsSub (pat : Chars) : Chars → Bool
  | [] => pat.isPrefixOf []
  | l@(_ :: rest) => pat.isPrefixOf l || containsSub pat rest

/-- Python `str.split(sep)` for a one-character separator. -/
def splitChar (sep : Char) : Chars → List Chars
  | [] => [[]]
  | c :: rest =>
    if c == sep then [] :: splitChar sep rest
    else
      match splitChar sep rest with
      | [] => [[c]]
      | s :: ss => (c :: s) :: ss

/-- Python `str.lower()` (ASCII case folding; all relevant inputs are
ASCII). -/
def lowerChars (l : Chars) : Chars := l.map Char.toLower

/-- Python `url.split(sep, 1)` as used by `urlsplit`, guarded by a
containment test: returns the part before the first occurrence of `sep`
and the part after it (empty when `sep` is absent, matching the unchanged
default of `''` in the Python code). -/
def pySplitOnce (sep : Char) (l : Chars) : Chars × Chars :=
  if l.any (· == sep) then
    (l.takeWhile (fun c => c != sep), (l.dropWhile (fun c => c != sep)).tail)
  else (l, [])

/-! ## `urllib.parse` embedding (CPython `Lib/urllib/parse.py`) -/

/-- The characters of `_WHATWG_C0_CONTROL_OR_SPACE`: code points 0x00
through 0x20. -/
def isC0OrSpace (c : Char) : Bool := decide (c.toNat ≤ 32)

/-- The characters of `_UNSAFE_URL_BYTES_TO_REMOVE`: tab, CR, LF. -/
def isUnsafeByte (c : Char) : Bool := c == '\t' || c == '\r' || c == '\n'

/-- The preprocessing `urlsplit` applies to its `url` argument: lstrip of
C0-control-or-space, then removal of every tab/CR/LF. -/
def preprocessUrl (l : Chars) : Chars :=
  (l.dropWhile isC0OrSpace).filter (fun c => !isUnsafeByte c)

/-- The preprocessing `urlsplit` applies to its `scheme` argument: strip of
C0-control-or-space on both ends, then removal of every tab/CR/LF. -/
def preprocessScheme (l : Chars) : Chars :=
  (((l.dropWhile isC0OrSpace).reverse.dropWhile isC0OrSpace).reverse).filter
    (fun c => !isUnsafeByte c)

/-- `scheme_chars` from `urllib.parse`. -/
def scheme_chars : Chars :=
  "abcdefghijklmnopqrstuvwxyzABCDEFGHIJKLMNOPQRSTUVWXYZ0123456789+-.".data

/-- The scheme-extraction step of `urlsplit`: if the text before the first
colon is a nonempty valid scheme (leading ASCII letter, rest in
`scheme_chars`), return it lowercased together with the remainder after
the colon; otherwise return `[]` and the unchanged url. -/
def splitScheme (url : Chars) : Chars × Chars :=
  let before := url.takeWhile (fun c => c != ':')
  let after := url.dropWhile (fun c => c != ':')
  match after, before with
  | ':' :: rest, c :: cs =>
    if isAsciiChar c && c.isAlpha && cs.all (fun x => scheme_chars.any (· == x)) then
      (lowerChars (c :: cs), rest)
    else ([], url)
  | _, _ => ([], url)

/-- Errors raised by the modelled Python code. -/
inductive PyErr where
  /-- `ValueError`, e.g. "Invalid IPv6 URL" from `urlsplit`. -/
  | valueError : PyErr
  /-- `requests.exceptions.HTTPError`; carries `exc.response.status_code`
  when a response is attached. -/
  | httpError (response : Option Nat) : PyErr
  /-- A transport-level failure (connect/read timeout, connection
  refused/reset, DNS failure): any `RequestException` that is not an
  `HTTPError`. -/
  | transport : PyErr
  /-- `PermissionError` raised by `get_html` when robots.txt disallows the
  URL and `respect_robots` is true. -/
  | permissionError (url : Chars) : PyErr
deriving DecidableEq, Repr

/-- Result of `urlsplit`. -/
structure SplitResult where
  scheme : Chars
  netloc : Chars
  path : Chars
  query : Chars
  fragment : Chars
deriving DecidableEq, Repr

/-- Predicate used by `_splitnetloc`: stop at the first of `/`, `?`, `#`. -/
def notDelim (c : Char) : Bool := !(c == '/' || c == '?' || c == '#')

/-- CPython `urllib.parse.urlsplit` (with `allow_fragments=True`, its value
at every call site in the code under verification).  Raises `ValueError`
for a netloc containing `[` without `]` or vice versa. -/
def urlsplit (urlIn dschemeIn : Chars) : Except PyErr SplitResult :=
  let url0 := preprocessUrl urlIn
  let dscheme := preprocessScheme dschemeIn
  let sr := splitScheme url0
  let scheme := if sr.1 == [] then dscheme else sr.1
  let url1 := sr.2
  if url1.take 2 == "//".data then
    let nl := (url1.drop 2).takeWhile notDelim
    let rest := (url1.drop 2).dropWhile notDelim
    if (nl.any (· == '[') && !(nl.any (· == ']'))) ||
       (nl.any (· == ']') && !(nl.any (· == '['))) then
      .error .valueError
    else
      let pf := pySplitOnce '#' rest
      let pq := pySplitOnce '?' pf.1
      .ok ⟨scheme, nl, pq.1, pq.2, pf.2⟩
  else
    let pf := pySplitOnce '#' url1
    let pq := pySplitOnce '?' pf.1
    .ok ⟨scheme, [], pq.1, pq.2, pf.2⟩

/-- Result of `urlparse`. -/
structure ParseResult where
  scheme : Chars
  netloc : Chars
  path : Chars
  params : Chars
  query : Chars
  fragment : Chars
deriving DecidableEq, Repr

/-- `uses_params` from `urllib.parse`. -/
def uses_params : List Chars :=
  (["", "ftp", "hdl", "prospero", "http", "imap", "https", "shttp", "rtsp",
    "rtspu", "sip", "sips", "mms", "sftp", "tel"]).map String.data

/-- `uses_relative` from `urllib.parse`. -/
def uses_relative : List Chars :=
  (["", "ftp", "http", "gopher", "nntp", "imap", "wais", "file", "https",
    "shttp", "mms", "prospero", "rtsp", "rtspu", "sftp", "svn", "svn+ssh",
    "ws", "wss"]).map String.data

/-- `uses_netloc` from `urllib.parse`. -/
def uses_netloc : List Chars :=
  (["", "ftp", "http", "gopher", "nntp", "telnet", "imap", "wais", "file",
    "mms", "https", "shttp", "snews", "prospero", "rtsp", "rtspu", "rsync",
    "svn", "svn+ssh", "sftp", "nfs", "git", "git+ssh", "ws", "wss",
    "itms-services"]).map String.data

/-- CPython `urllib.parse._splitparams`.  (Only invoked by `urlparse` when
the path contains a semicolon; the out-of-contract `find` quirk for a
semicolon-free input is not modelled.) -/
def _splitparams (url : Chars) : Chars × Chars :=
  if url.any (· == '/') then
    let pre := ((url.reverse).dropWhile (fun c => c != '/')).reverse
    let lastseg := ((url.reverse).takeWhile (fun c => c != '/')).reverse
    if lastseg.any (· == ';') then
      (pre ++ lastseg.takeWhile (fun c => c != ';'),
       (lastseg.dropWhile (fun c => c != ';')).tail)
    else (url, [])
  else
    if url.any (· == ';') then
      (url.takeWhile (fun c => c != ';'), (url.dropWhile (fun c => c != ';')).tail)
    else (url, [])

/-- CPython `urllib.parse.urlparse`. -/
def urlparse (url dscheme : Chars) : Except PyErr ParseResult :=
  match urlsplit url dscheme with
  | .error e => .error e
  | .ok r =>
    if uses_params.any (· == r.scheme) && r.path.any (· == ';') then
      let pp := _splitparams r.path
      .ok ⟨r.scheme, r.netloc, pp.1, pp.2, r.query, r.fragment⟩
    else .ok ⟨r.scheme, r.netloc, r.path, [], r.query, r.fragment⟩

/-- CPython `urllib.parse.urlunsplit`. -/
def urlunsplit (scheme netloc path query fragment : Chars) : Chars :=
  let url := path
  let url :=
    if netloc != [] || (url != [] && url.take 2 == "//".data) then
      "//".data ++ netloc ++
        (if url != [] && url.take 1 != "/".data then '/' :: url else url)
    else url
  let url := if scheme != [] then scheme ++ ':' :: url else url
  let url := if query != [] then url ++ '?' :: query else url
  let url := if fragment != [] then url ++ '#' :: fragment else url
  url

/-- CPython `urllib.parse.urlunparse`. -/
def urlunparse (scheme netloc path params query fragment : Chars) : Chars :=
  let url := if params != [] then path ++ ';' :: params else path
  urlunsplit scheme netloc url query fragment

/-- The segment-resolution loop of `urljoin` (`..` pops, `.` is skipped,
anything else is appended; popping an empty stack is a no-op). -/
def resolveSegs : List Chars → List Chars → List Chars
  | acc, [] => acc
  | acc, seg :: rest =>
    if seg == "..".data then resolveSegs acc.dropLast rest
    else if seg == ".".data then resolveSegs acc rest
    else resolveSegs (acc ++ [seg]) rest

/-- CPython `urllib.parse.urljoin`. -/
def urljoin (base url : Chars) : Except PyErr Chars :=
  if base == [] then .ok url
  else if url == [] then .ok base
  else
    match urlparse base [] with
    | .error e => .error e
    | .ok b =>
      match urlparse url b.scheme with
      | .error e => .error e
      | .ok u =>
        if u.scheme != b.scheme || !(uses_relative.any (· == u.scheme)) then
          .ok url
        else if uses_netloc.any (· == u.scheme) && u.netloc != [] then
          .ok (urlunparse u.scheme u.netloc u.path u.params u.query u.fragment)
        else
          let netloc :=
            if uses_netloc.any (· == u.scheme) then b.netloc else u.netloc
          if u.path == [] && u.params == [] then
            let query := if u.query == [] then b.query else u.query
            .ok (urlunparse u.scheme netloc b.path b.params query u.fragment)
          else
            let base_parts := splitChar '/' b.path
            let base_parts :=
              if base_parts.getLastD [] != [] then base_parts.dropLast
              else base_parts
            let segments :=
              if u.path.take 1 == "/".data then splitChar '/' u.path
              else
                let segs := base_parts ++ splitChar '/' u.path
                match segs with
                | [] => []
                | s :: rest =>
                  if rest == [] then segs
                  else
                    s :: ((rest.dropLast).filter (fun x => x != [])) ++
                      [rest.getLastD []]
            let resolved := resolveSegs [] segments
            let resolved :=
              if segments.getLastD [] == ".".data ||
                 segments.getLastD [] == "..".data then resolved ++ [[]]
              else resolved
            let joined := List.intercalate "/".data resolved
            let path2 := if joined == [] then "/".data else joined
            .ok (urlunparse u.scheme netloc path2 u.params u.query u.fragment)

/-! ## `urllib.robotparser` embedding (CPython `Lib/urllib/robotparser.py`) -/

/-- A single allow/disallow line of robots.txt (`RuleLine`).  The
percent-encoding normalisation of the rule path (`urlunparse(urlparse(p))`
followed by `quote`) is modelled as the identity. -/
structure RuleLine where
  path : Chars
  allow : Bool
deriving DecidableEq, Repr

/-- `RuleLine.__init__`: an empty disallow value means allow all. -/
def mkRuleLine (path : Chars) (allow : Bool) : RuleLine :=
  ⟨path, if path == [] && !allow then true else allow⟩

/-- `RuleLine.applies_to`. -/
def RuleLine.applies_to (r : RuleLine) (filename : Chars) : Bool :=
  r.path == "*".data || r.path.isPrefixOf filename

/-- An `Entry` of robots.txt: user agents and their rule lines. -/
structure REntry where
  useragents : List Chars
  rulelines : List RuleLine
deriving DecidableEq, Repr

/-- `Entry.applies_to`: match the first product token of the user agent,
case-insensitively, against each agent pattern (`*` matches anything, and
a pattern matches when it is a substring of the token). -/
def REntry.applies_to (e : REntry) (useragent : Chars) : Bool :=
  let ua := lowerChars ((splitChar '/' useragent).headD [])
  e.useragents.any (fun agent => agent == "*".data || containsSub (lowerChars agent) ua)

/-- `Entry.allowance`: the first matching rule line decides; no match means
allowed. -/
def REntry.allowance (e : REntry) (filename : Chars) : Bool :=
  match e.rulelines.find? (fun r => r.applies_to filename) with
  | some r => r.allow
  | none => true

/-- The state of a `RobotFileParser` instance. `last_checked` abstracts the
timestamp set by `modified()` to the flag `can_fetch` actually tests. -/
structure RobotFileParser where
  entries : List REntry
  default_entry : Option REntry
  disallow_all : Bool
  allow_all : Bool
  last_checked : Bool
deriving DecidableEq, Repr

/-- A freshly constructed `RobotFileParser()`. -/
def emptyRFP : RobotFileParser := ⟨[], none, false, false, false⟩

/-- `RobotFileParser._add_entry`: an entry for `*` becomes the default
entry (first wins); every other entry is appended. -/
def _add_entry (entries : List REntry) (default : Option REntry) (e : REntry) :
    List REntry × Option REntry :=
  if e.useragents.any (· == "*".data) then
    match default with
    | none => (entries, some e)
    | some d => (entries, some d)
  else (entries ++ [e], default)

/-- Python `str.splitlines()` restricted to the line boundaries `\n`, `\r`
and `\r\n` (the further Unicode boundaries Python recognises do not occur
in the inputs of this development). -/
def splitlinesGo : Chars → Chars → List Chars
  | acc, [] => if acc == [] then [] else [acc.reverse]
  | acc, '\r' :: '\n' :: rest => acc.reverse :: splitlinesGo [] rest
  | acc, '\r' :: rest => acc.reverse :: splitlinesGo [] rest
  | acc, '\n' :: rest => acc.reverse :: splitlinesGo [] rest
  | acc, c :: rest => splitlinesGo (c :: acc) rest

/-- Python `str.splitlines()`. -/
def pySplitlines (s : Chars) : List Chars := splitlinesGo [] s

/-- Accumulator of the `RobotFileParser.parse` state machine. -/
structure ParseAcc where
  state : Nat
  entry_ua : List Chars
  entry_rules : List RuleLine
  entries : List REntry
  default_entry : Option REntry
deriving DecidableEq, Repr

/-- One iteration of the `RobotFileParser.parse` loop over one line. -/
def parseLine (acc0 : ParseAcc) (raw : Chars) : ParseAcc :=
  let acc :=
    if raw == [] then
      if acc0.state == 1 then
        { acc0 with state := 0, entry_ua := [], entry_rules := [] }
      else if acc0.state == 2 then
        let ed := _add_entry acc0.entries acc0.default_entry ⟨acc0.entry_ua, acc0.entry_rules⟩
        ⟨0, [], [], ed.1, ed.2⟩
      else acc0
    else acc0
  let line := raw.takeWhile (fun c => c != '#')
  let line := pyStripChars line
  if line == [] then acc
  else if line.any (· == ':') then
    let key := lowerChars (pyStripChars (line.takeWhile (fun c => c != ':')))
    let value := pyStripChars ((line.dropWhile (fun c => c != ':')).tail)
    if key == "user-agent".data then
      if acc.state == 2 then
        let ed := _add_entry acc.entries acc.default_entry ⟨acc.entry_ua, acc.entry_rules⟩
        ⟨1, [value], [], ed.1, ed.2⟩
      else { acc with state := 1, entry_ua := acc.entry_ua ++ [value] }
    else if key == "disallow".data then
      if acc.state != 0 then
        { acc with state := 2, entry_rules := acc.entry_rules ++ [mkRuleLine value false] }
      else acc
    else if key == "allow".data then
      if acc.state != 0 then
        { acc with state := 2, entry_rules := acc.entry_rules ++ [mkRuleLine value true] }
      else acc
    else if key == "crawl-delay".data || key == "request-rate".data then
      if acc.state != 0 then { acc with state := 2 } else acc
    else acc
  else acc

/-- `RobotFileParser.parse`: run the state machine over the lines, flushing
a pending entry at the end; `modified()` marks the parser as checked. -/
def RobotFileParser.parse (rp : RobotFileParser) (lines : List Chars) : RobotFileParser :=
  let acc := lines.foldl parseLine ⟨0, [], [], rp.entries, rp.default_entry⟩
  let ed :=
    if acc.state == 2 then
      _add_entry acc.entries acc.default_entry ⟨acc.entry_ua, acc.entry_rules⟩
    else (acc.entries, acc.default_entry)
  { rp with entries := ed.1, default_entry := ed.2, last_checked := true }

/-- `RobotFileParser.can_fetch`.  Raises whatever `urlparse` raises on the
queried URL (`unquote` is modelled as the identity). -/
def RobotFileParser.can_fetch (rp : RobotFileParser) (useragent url : Chars) :
    Except PyErr Bool :=
  if rp.disallow_all then .ok false
  else if rp.allow_all then .ok true
  else if !rp.last_checked then .ok false
  else
    match urlparse url [] with
    | .error e => .error e
    | .ok p =>
      let u1 := urlunparse [] [] p.path p.params p.query []
      let u2 := if u1 == [] then "/".data else u1
      match rp.entries.find? (fun e => e.applies_to useragent) with
      | some e => .ok (e.allowance u2)
      | none =>
        match rp.default_entry with
        | some d => .ok (d.allowance u2)
        | none => .ok true

/-! ## `avanza_cli.http` embedding -/

/-- The `User-Agent` entry of `DEFAULT_HEADERS`. -/
def DEFAULT_UA : Chars :=
  ("Mozilla/5.0 (Windows NT 10.0; Win64; x64) AppleWebKit/537.36 " ++
   "(KHTML, like Gecko) Chrome/124.0.0.0 Safari/537.36").data

/-- `STATUS_FOR_RETRY`: HTTP status codes that trigger a retry. -/
def STATUS_FOR_RETRY : List Nat := [429, 500, 502, 503, 504]

/-- `_retry_on_http_error`: retry exactly when the exception is an
`HTTPError` with an attached response whose status code is in
`STATUS_FOR_RETRY`. -/
def _retry_on_http_error (exc : PyErr) : Bool :=
  match exc with
  | .httpError (some status) => STATUS_FOR_RETRY.any (· == status)
  | _ => false

/-- Outcome of the `session.get` call for robots.txt: a response with a
status code and body text, or a raised transport exception. -/
inductive RFetchResult where
  | resp (status : Nat) (body : Chars) : RFetchResult
  | exc : RFetchResult
deriving DecidableEq, Repr

/-- The module-level `_ROBOTS_CACHE`: one `RobotFileParser` per netloc. -/
structure RobotsState where
  cache : List (Chars × RobotFileParser)
deriving DecidableEq, Repr

/-- The empty `_ROBOTS_CACHE` at interpreter start. -/
def initialRobotsState : RobotsState := ⟨[]⟩

/-- `_get_robot_parser` (renamed): the lock-guarded cache lookup. -/
def getCachedRobotParser (st : RobotsState) (netloc : Chars) : Option RobotFileParser :=
  List.lookup netloc st.cache

/-- Observable effects of the modelled functions, used to state the claims
about requests issued and delays performed. -/
inductive Event where
  /-- A GET of `robots.txt` for the given netloc. -/
  | robotsFetch (netloc : Chars) : Event
  /-- An invocation of `_polite_sleep`. -/
  | sleep : Event
  /-- The GET of the target URL itself inside `get_html`. -/
  | get : Event
deriving DecidableEq, Repr

/-- `check_robots_allowed`.  `rfetch` is the transport oracle for the
robots.txt GET, keyed by the robots URL; the returned event list records
whether that GET was issued.  The session's `timeout` plumbing carries no
behavioural content and is omitted. -/
def check_robots_allowed (url : Chars) (user_agent : Option Chars)
    (rfetch : Chars → RFetchResult) (st : RobotsState) :
    Except PyErr Bool × RobotsState × List Event :=
  match urlparse url [] with
  | .error e => (.error e, st, [])
  | .ok parsed =>
    let netloc := parsed.netloc
    if netloc == [] then (.ok true, st, [])
    else
      let ua := user_agent.getD DEFAULT_UA
      match getCachedRobotParser st netloc with
      | some rp => (rp.can_fetch ua url, st, [])
      | none =>
        let robots_url := parsed.scheme ++ "://".data ++ netloc ++ "/robots.txt".data
        let rp :=
          match rfetch robots_url with
          | .resp status body =>
            if status == 200 then emptyRFP.parse (pySplitlines body)
            else emptyRFP.parse []
          | .exc => emptyRFP.parse []
        let st' : RobotsState := ⟨(netloc, rp) :: st.cache⟩
        (rp.can_fetch ua url, st', [.robotsFetch netloc])

/-- A call to `check_robots_allowed` in a sequence of calls: target URL,
optional user agent, and the transport oracle in effect for that call. -/
structure CheckCall where
  url : Chars
  user_agent : Option Chars
  rfetch : Chars → RFetchResult

/-- Run a sequence of `check_robots_allowed` calls against the shared
cache, returning the final cache and the concatenated events. -/
def runChecks : List CheckCall → RobotsState → RobotsState × List Event
  | [], st => (st, [])
  | c :: rest, st =>
    match check_robots_allowed c.url c.user_agent c.rfetch st with
    | (_, st', evs) =>
      match runChecks rest st' with
      | (st'', evs') => (st'', evs ++ evs')

/-- One execution of the body of `get_html` (lines 220-232 of `http.py`):
robots check, optional enforcement, polite sleep, GET,
`raise_for_status`.  `outcome` is what the GET attempt yields: the body
text on 2xx, an `httpError` carrying the status on a non-2xx response, or
a transport error.  The event list records the effects in order. -/
def get_html_body (url : Chars) (respect_robots : Bool)
    (rfetch : Chars → RFetchResult) (outcome : Except PyErr Chars)
    (st : RobotsState) : Except PyErr Chars × RobotsState × List Event :=
  match check_robots_allowed url none rfetch st with
  | (.error e, st', evs) => (.error e, st', evs)
  | (.ok allowed, st', evs) =>
    if respect_robots && !allowed then
      (.error (.permissionError url), st', evs)
    else
      match outcome with
      | .ok body => (.ok body, st', evs ++ [.sleep, .get])
      | .error e => (.error e, st', evs ++ [.sleep, .get])

/-- The tenacity retry loop around `get_html_body`:
`retry(reraise=True, stop=stop_after_attempt(5),
retry=retry_if_exception(_retry_on_http_error))`.  `attempt` is the
1-based attempt number, `fuel` the number of retries still permitted
(4 on entry, so 5 total attempts); `outcomes` maps the attempt number to
that attempt's GET outcome.  With `reraise=True` the last exception is
re-raised unchanged once attempts are exhausted. -/
def get_html_go (url : Chars) (respect_robots : Bool)
    (rfetch : Chars → RFetchResult) (outcomes : Nat → Except PyErr Chars) :
    Nat → Nat → RobotsState → Except PyErr Chars × RobotsState × List Event
  | attempt, fuel, st =>
    match get_html_body url respect_robots rfetch (outcomes attempt) st with
    | (.ok b, st', evs) => (.ok b, st', evs)
    | (.error e, st', evs) =>
      match fuel with
      | 0 => (.error e, st', evs)
      | fuel' + 1 =>
        if _retry_on_http_error e then
          match get_html_go url respect_robots rfetch outcomes (attempt + 1) fuel' st' with
          | (r, st'', evs') => (r, st'', evs ++ evs')
        else (.error e, st', evs)

/-- `get_html`: at most 5 total attempts. -/
def get_html (url : Chars) (respect_robots : Bool)
    (rfetch : Chars → RFetchResult) (outcomes : Nat → Except PyErr Chars)
    (st : RobotsState) : Except PyErr Chars × RobotsState × List Event :=
  get_html_go url respect_robots rfetch outcomes 1 4 st

/-- Whether an attempt outcome stops the retry loop: success always stops,
and an exception stops unless `_retry_on_http_error` accepts it. -/
def stopsAttempt (o : Except PyErr Chars) : Bool :=
  match o with
  | .ok _ => true
  | .error e => !_retry_on_http_error e

/-- The attempt on which the retry loop starting at attempt `a` with `fuel`
retries left comes to rest. -/
def stopIdxAux (outcomes : Nat → Except PyErr Chars) : Nat → Nat → Nat
  | a, 0 => a
  | a, fuel + 1 => if stopsAttempt (outcomes a) then a else stopIdxAux outcomes (a + 1) fuel

/-- The attempt (1-based, at most 5) whose outcome `get_html` returns. -/
def stop_attempt_index (outcomes : Nat → Except PyErr Chars) : Nat :=
  stopIdxAux outcomes 1 4

/-- `_polite_sleep`, parameterised by the process environment and by the
value `random.uniform(min_delay, max_delay)` would draw.  Returns the
Python return value together with a flag recording whether `time.sleep`
was invoked. -/
def _polite_sleep (getenv : String → Option String) (draw : ℚ)
    (_min_delay _max_delay : ℚ) : ℚ × Bool :=
  if getenv "HTTP_DISABLE_DELAY" == some "1" then (0, false)
  else (draw, true)

/-! ## `avanza_cli.link_harvester` embedding -/

/-- `SEED_URL`. -/
def SEED_URL : Chars :=
  "https://www.avanza.se/aktier/hitta.html?s=numberOfOwners.desc&o=20000".data

/-- `AVANZA_HOST`. -/
def AVANZA_HOST : Chars := "www.avanza.se".data

/-- `PATH_SUBSTR`. -/
def PATH_SUBSTR : Chars := "/aktier/om-aktien/".data

/-- `RELATIVE_PATH_RE.match(href)` viewed as a Boolean: the regex is
anchored at the start and requires the literal prefix
`/aktier/om-aktien/` followed by at least one non-whitespace character. -/
def relative_path_matches (href : Chars) : Bool :=
  PATH_SUBSTR.isPrefixOf href &&
    (match href.drop PATH_SUBSTR.length with
     | [] => false
     | c :: _ => !pyIsSpace c)

/-- The candidate-collection loop over the anchors (lines 57-66 of
`link_harvester.py`): each anchor contributes its `href` attribute (or
`''` when absent), stripped; blank hrefs are skipped, and the rest are
kept when they contain `PATH_SUBSTR` or match `RELATIVE_PATH_RE`. -/
def candidate_hrefs (anchors : List (Option Chars)) : List Chars :=
  anchors.filterMap (fun a =>
    let href := pyStripChars (a.getD [])
    if href == [] then none
    else if containsSub PATH_SUBSTR href || relative_path_matches href then some href
    else none)

/-- The normalisation loop over the candidate hrefs (lines 69-88): resolve
against `SEED_URL`, enforce scheme and host, strip the fragment, and
re-verify the path marker.  An exception from `urljoin`/`urlsplit`
propagates, aborting the whole harvest. -/
def harvest_cleaned : List Chars → Except PyErr (List Chars)
  | [] => .ok []
  | href :: rest =>
    match urljoin SEED_URL href with
    | .error e => .error e
    | .ok abs_url =>
      match urlsplit abs_url [] with
      | .error e => .error e
      | .ok parts =>
        if parts.scheme != "https".data || parts.netloc != AVANZA_HOST then
          harvest_cleaned rest
        else
          let cleaned := urlunsplit parts.scheme parts.netloc parts.path parts.query []
          if !(containsSub PATH_SUBSTR parts.path) then harvest_cleaned rest
          else
            match harvest_cleaned rest with
            | .error e => .error e
            | .ok cu => .ok (cleaned :: cu)

/-- The deduplication loop (lines 91-96): `seen` is the Python set, and
the returned list preserves first-occurrence order. -/
def dedup_first_occ : List Chars → List Chars → List Chars
  | _, [] => []
  | seen, u :: rest =>
    if seen.any (· == u) then dedup_first_occ seen rest
    else u :: dedup_first_occ (u :: seen) rest

/-- `harvest_links`.  `session` is `None` or an opaque session;
`fetchResult` is the outcome of `get_html(SEED_URL, session)` (the
`except Exception` catch-all absorbs any error it carries); `soup` maps
the fetched markup to the `href` attribute value of each `<a>` element in
document order (`none` when the attribute is absent), abstracting the
BeautifulSoup boundary.  The Boolean records whether the fetch was
attempted. -/
def harvest_links (session : Option Unit) (fetchResult : Except PyErr Chars)
    (soup : Chars → List (Option Chars)) : Except PyErr (List Chars) × Bool :=
  match session with
  | none => (.ok [], false)
  | some _ =>
    match fetchResult with
    | .error _ => (.ok [], true)
    | .ok html =>
      if html == [] || (pyStripChars html).length < 100 then (.ok [], true)
      else
        match harvest_cleaned (candidate_hrefs (soup html)) with
        | .error e => (.error e, true)
        | .ok cu => (.ok (dedup_first_occ [] cu), true)

/-- Keep the first occurrence of every string, dropping later duplicates:
the specification-side description of the harvester's deduplication. -/
def keepFirsts : List Chars → List Chars
  | [] => []
  | u :: rest => u :: keepFirsts (rest.filter (fun v => v != u))
termination_by l => l.length
decreasing_by
  simp_wf
  exact Nat.lt_succ_of_le (List.length_filter_le _ _)

/-! ## `avanza_cli.datastore` embedding -/

/-- A row of the `stocks` table. -/
structure StockRow where
  id : Nat
  ticker : String
  name : String
  avanza_url : String
deriving DecidableEq, Repr

/-- The state of the SQLite database visible to `upsert_stock`. -/
structure DbState where
  stocks : List StockRow
  nextId : Nat
deriving DecidableEq, Repr

/-- Python `str.strip()` on a `String`. -/
def pyStrip (s : String) : String :=
  String.mk (pyStripChars s.data)

/-- `upsert_stock`: validate the ticker, then open a connection and run
`INSERT ... ON CONFLICT(ticker) DO UPDATE ... RETURNING id` in a write
transaction.  The returned flag records whether `get_conn` was reached
(i.e. whether any database connection was opened).  The fallback branch
for SQLite builds without `RETURNING` support performs the same upsert
and is not modelled separately. -/
def upsert_stock (ticker name avanza_url : String) (db : DbState) :
    Except PyErr Nat × DbState × Bool :=
  if pyStrip ticker == "" then (.error .valueError, db, false)
  else
    match db.stocks.find? (fun r => r.ticker == ticker) with
    | some row =>
      (.ok row.id,
       ⟨db.stocks.map (fun r =>
          if r.ticker == ticker then ⟨r.id, r.ticker, name, avanza_url⟩ else r),
        db.nextId⟩,
       true)
    | none =>
      (.ok db.nextId,
       ⟨db.stocks ++ [⟨db.nextId, ticker, name, avanza_url⟩], db.nextId + 1⟩,
       true)

/-- The anchors of the repository's `test_harvest_links_robustness` test. -/
def robustnessAnchors : List (Option Chars) :=
  [some "/aktier/om-aktien/test-stock".data,
   some "/aktier/om-aktien/another-stock".data,
   some "https://www.avanza.se/aktier/om-aktien/abs-stock".data,
   some "/aktier/om-aktien/test-stock".data,
   some "https://www.avanza.se/aktier/om-aktien/test-stock".data,
   some "https://m.avanza.se/aktier/om-aktien/mobile".data,
   some "https://other.com/aktier/om-aktien/other".data,
   some "http://www.avanza.se/aktier/om-aktien/insecure".data,
   some "/aktier/om-aktien/frag-stock#section".data,
   some "/aktier/om-aktien/frag-stock#different".data,
   some "/other/page".data,
   some "/aktier/not-om-aktien/wrong".data,
   some "".data,
   none,
   some "   ".data]

/-- A plausible seed page: long enough to pass the 100-character guard. -/
def longHtml : Chars :=
  (String.replicate 30 'x').data ++ "<html><body>page body content</body></html>".data ++
    (String.replicate 40 'y').data


/-- Restriction of a trace to the `_polite_sleep` invocations and target
GETs, used to state that the delay precedes every attempt. -/
def sleepGetTrace (evs : List Event) : List Event :=
  evs.filter (fun e => e == Event.sleep || e == Event.get)

/-- A robots.txt fetch outcome the code treats as a failure: a transport
exception or any status other than 200. -/
def robotsFetchFailed (r : RFetchResult) : Prop :=
  match r with
  | .resp status _ => status ≠ 200
  | .exc => True

/-- The parser produced by the fail-open branches of
`check_robots_allowed`: a fresh parser fed the empty rule list. -/
def allowAllParser : RobotFileParser := emptyRFP.parse []

/-! ## Sanity checks of the embedding against the repository's tests -/

example : urlsplit "https://www.avanza.se/a?q=1#f".data [] =
    .ok ⟨"https".data, "www.avanza.se".data, "/a".data, "q=1".data, "f".data⟩ := by
  decide

example : urlsplit "http://[".data [] = .error .valueError := by decide

example :
    urljoin "https://www.avanza.se/aktier/hitta.html?s=x".data
      "/aktier/om-aktien/test-stock".data =
    .ok "https://www.avanza.se/aktier/om-aktien/test-stock".data := by decide

example :
    (check_robots_allowed "https://example.com/private/page".data none
      (fun _ => .resp 200 "User-agent: *\nDisallow: /private/".data)
      initialRobotsState).1 = .ok false := by decide

example :
    (check_robots_allowed "https://example.com/public/page".data none
      (fun _ => .resp 200 "User-agent: *\nDisallow: /private/".data)
      initialRobotsState).1 = .ok true := by decide

example :
    (check_robots_allowed "https://example.com/anything".data none
      (fun _ => .exc) initialRobotsState).1 = .ok true := by decide

example :
    (check_robots_allowed "not-a-url".data none (fun _ => .exc)
      initialRobotsState).1 = .ok true := by decide

example : (pyStripChars longHtml).length ≥ 100 := by decide

example :
    harvest_links (some ()) (.ok longHtml) (fun _ => robustnessAnchors) =
      (.ok
        ["https://www.avanza.se/aktier/om-aktien/test-stock".data,
         "https://www.avanza.se/aktier/om-aktien/another-stock".data,
         "https://www.avanza.se/aktier/om-aktien/abs-stock".data,
         "https://www.avanza.se/aktier/om-aktien/frag-stock".data],
       true) := by decide

example :
    (get_html "https://example.com/x".data false (fun _ => .exc)
      (fun k => if k < 3 then .error (.httpError (some 500)) else .ok "done".data)
      initialRobotsState).1 = .ok "done".data := by decide

/-! ## Helper lemmas -/

theorem takeWhile_append_stop (p : Char → Bool) :
    ∀ (l₁ : Chars) (c : Char) (l₂ : Chars), (∀ x ∈ l₁, p x = true) → p c = false →
    ((l₁ ++ c :: l₂).takeWhile p = l₁ ∧ (l₁ ++ c :: l₂).dropWhile p = c :: l₂)
  | [], c, l₂, _, hc => by
    constructor <;> simp [List.takeWhile_cons, List.dropWhile_cons, hc]
  | a :: t, c, l₂, h, hc => by
    have ha : p a = true := h a (by simp)
    have ih := takeWhile_append_stop p t c l₂ (fun x hx => h x (by simp [hx])) hc
    constructor <;>
      simp [List.takeWhile_cons, List.dropWhile_cons, ha, ih.1, ih.2]

theorem mem_of_mem_takeWhile {p : Char → Bool} {l : Chars} {x : Char}
    (h : x ∈ l.takeWhile p) : x ∈ l :=
  (List.takeWhile_sublist p).mem h

theorem mem_of_mem_dropWhile {p : Char → Bool} {l : Chars} {x : Char}
    (h : x ∈ l.dropWhile p) : x ∈ l :=
  (List.dropWhile_sublist p).mem h

theorem mem_of_mem_pySplitOnce_fst {c : Char} {l : Chars} {x : Char}
    (h : x ∈ (pySplitOnce c l).1) : x ∈ l := by
  unfold pySplitOnce at h
  split at h
  · exact mem_of_mem_takeWhile h
  · exact h

theorem mem_of_mem_pySplitOnce_snd {c : Char} {l : Chars} {x : Char}
    (h : x ∈ (pySplitOnce c l).2) : x ∈ l := by
  unfold pySplitOnce at h
  split at h
  · exact mem_of_mem_dropWhile ((List.tail_sublist _).mem h)
  · simp at h

theorem pySplitOnce_fst_not_mem (c : Char) (l : Chars) : c ∉ (pySplitOnce c l).1 := by
  unfold pySplitOnce
  split
  · intro h
    have := List.mem_takeWhile_imp h
    simp at this
  · intro h
    rename_i hany
    exact hany (List.any_eq_true.mpr ⟨c, h, by simp⟩)

theorem pySplitOnce_none (c : Char) (l : Chars) (h : c ∉ l) :
    pySplitOnce c l = (l, []) := by
  unfold pySplitOnce
  rw [if_neg]
  intro hany
  rw [List.any_eq_true] at hany
  obtain ⟨x, hxl, hxc⟩ := hany
  exact h ((beq_iff_eq.mp hxc) ▸ hxl)

theorem pySplitOnce_split (c : Char) (l₁ l₂ : Chars) (h : c ∉ l₁) :
    pySplitOnce c (l₁ ++ c :: l₂) = (l₁, l₂) := by
  unfold pySplitOnce
  rw [if_pos]
  · have hall : ∀ x ∈ l₁, (fun x => x != c) x = true := by
      intro x hx
      simp only [bne_iff_ne, ne_eq]
      intro hxc
      exact h (hxc ▸ hx)
    have hc : (fun x => x != c) c = false := by simp
    have hstop := takeWhile_append_stop (fun x => x != c) l₁ c l₂ hall hc
    rw [hstop.1, hstop.2]
    rfl
  · rw [List.any_eq_true]
    exact ⟨c, by simp, by simp⟩

theorem pyStripChars_all_space {l : Chars} (h : ∀ c ∈ l, pyIsSpace c = true) :
    pyStripChars l = [] := by
  unfold pyStripChars
  have h1 : l.dropWhile pyIsSpace = [] := by
    rw [List.dropWhile_eq_nil_iff]
    exact fun x hx => h x hx
  rw [h1]
  rfl

theorem check_robots_allowed_evs (url : Chars) (ua : Option Chars)
    (f : Chars → RFetchResult) (st : RobotsState) :
    (check_robots_allowed url ua f st).2.2 = [] ∨
      ∃ n, (check_robots_allowed url ua f st).2.2 = [Event.robotsFetch n] := by
  unfold check_robots_allowed
  cases urlparse url [] with
  | error e => simp
  | ok parsed =>
    simp only
    split
    · simp
    · cases getCachedRobotParser st parsed.netloc with
      | some rp => simp
      | none => exact Or.inr ⟨parsed.netloc, rfl⟩

theorem check_robots_allowed_no_sleep_get (url : Chars) (ua : Option Chars)
    (f : Chars → RFetchResult) (st : RobotsState) :
    (check_robots_allowed url ua f st).2.2.count Event.sleep = 0 ∧
      (check_robots_allowed url ua f st).2.2.count Event.get = 0 ∧
      sleepGetTrace (check_robots_allowed url ua f st).2.2 = [] := by
  rcases check_robots_allowed_evs url ua f st with h | ⟨n, h⟩ <;>
    rw [h] <;> exact ⟨rfl, rfl, rfl⟩

/-! ## Claim C10 -/

/-- C10: `upsert_stock` raises a `ValueError` whenever the given ticker is
empty or consists only of whitespace, and it does so before opening any
database connection, so the database state is unchanged in that case. -/
theorem upsert_stock_rejects_blank_ticker (ticker name avanza_url : String)
    (db : DbState) (h : ∀ c ∈ ticker.data, pyIsSpace c = true) :
    upsert_stock ticker name avanza_url db = (.error .valueError, db, false) := by
  have hs : pyStrip ticker = "" := by
    unfold pyStrip
    rw [pyStripChars_all_space h]
  unfold upsert_stock
  rw [hs]
  rfl

/-- Witness for C10 at the concrete whitespace-only ticker `"  "`. -/
theorem upsert_stock_rejects_blank_ticker_witness :
    upsert_stock "  " "Name" "https://url" ⟨[], 1⟩ =
      (.error .valueError, ⟨[], 1⟩, false) :=
  upsert_stock_rejects_blank_ticker "  " "Name" "https://url" ⟨[], 1⟩ (by decide)

/-! ## Claim C9 -/

/-- C9: the politeness-delay disable toggle is the environment variable
`HTTP_DISABLE_DELAY` compared against the exact string `"1"`: for every
other value of that variable (including `"0"`, `"true"`, or unset),
`_polite_sleep` performs the randomized sleep and returns the (positive)
uniform draw from the default range rather than `0.0`. -/
theorem polite_sleep_toggle_exact (getenv : String → Option String) (draw : ℚ)
    (h : getenv "HTTP_DISABLE_DELAY" ≠ some "1")
    (hlo : 1 / 2 ≤ draw) (_hhi : draw ≤ 3 / 2) :
    _polite_sleep getenv draw (1 / 2) (3 / 2) = (draw, true) ∧ 0 < draw := by
  constructor
  · unfold _polite_sleep
    rw [if_neg]
    intro hb
    exact h (beq_iff_eq.mp hb)
  · linarith

/-- Witness for C9 at the toggle value `"0"` and draw 1. -/
theorem polite_sleep_toggle_exact_witness :
    _polite_sleep (fun _ => some "0") 1 (1 / 2) (3 / 2) = (1, true) ∧ (0 : ℚ) < 1 :=
  polite_sleep_toggle_exact (fun _ => some "0") 1 (by decide) (by norm_num) (by norm_num)

theorem get_html_body_trace (url : Chars) (rr : Bool) (rfetch : Chars → RFetchResult)
    (outcome : Except PyErr Chars) (st : RobotsState) :
    (get_html_body url rr rfetch outcome st).2.2 =
        (check_robots_allowed url none rfetch st).2.2 ∨
      (get_html_body url rr rfetch outcome st).2.2 =
        (check_robots_allowed url none rfetch st).2.2 ++ [Event.sleep, Event.get] := by
  unfold get_html_body
  rcases h : check_robots_allowed url none rfetch st with ⟨res, st', evs⟩
  cases res with
  | error e => simp
  | ok allowed =>
    simp only
    split
    · simp
    · cases outcome with
      | ok b => simp
      | error e => simp

theorem sleepGet_body_append (url : Chars) (rr : Bool)
    (rfetch : Chars → RFetchResult) (outcome : Except PyErr Chars)
    (st : RobotsState) (tail : List Event)
    (htail : sleepGetTrace tail =
      (List.replicate (tail.count Event.get) [Event.sleep, Event.get]).flatten) :
    sleepGetTrace ((get_html_body url rr rfetch outcome st).2.2 ++ tail) =
      (List.replicate
        (((get_html_body url rr rfetch outcome st).2.2 ++ tail).count Event.get)
        [Event.sleep, Event.get]).flatten := by
  have hchk := check_robots_allowed_no_sleep_get url none rfetch st
  rcases get_html_body_trace url rr rfetch outcome st with hb | hb <;> rw [hb]
  · unfold sleepGetTrace at htail hchk ⊢
    rw [List.filter_append, hchk.2.2, List.count_append, hchk.2.1, htail]
    simp
  · unfold sleepGetTrace at htail hchk ⊢
    rw [List.append_assoc, List.filter_append, hchk.2.2,
      List.count_append, hchk.2.1, List.count_append]
    have h1 : List.filter (fun e => e == Event.sleep || e == Event.get)
        ([Event.sleep, Event.get] ++ tail) =
        Event.sleep :: Event.get :: List.filter (fun e => e == Event.sleep || e == Event.get) tail := by
      simp
    rw [h1, htail]
    have h2 : ([Event.sleep, Event.get] : List Event).count Event.get = 1 := rfl
    rw [h2]
    rw [Nat.zero_add, Nat.add_comm, List.replicate_succ, List.flatten_cons]
    rfl

theorem get_html_go_sleep_get (url : Chars) (rr : Bool)
    (rfetch : Chars → RFetchResult) (outcomes : Nat → Except PyErr Chars) :
    ∀ (fuel attempt : Nat) (st : RobotsState),
    sleepGetTrace (get_html_go url rr rfetch outcomes attempt fuel st).2.2 =
      (List.replicate
        ((get_html_go url rr rfetch outcomes attempt fuel st).2.2.count Event.get)
        [Event.sleep, Event.get]).flatten := by
  intro fuel
  induction fuel with
  | zero =>
    intro attempt st
    unfold get_html_go
    rcases hb : get_html_body url rr rfetch (outcomes attempt) st with ⟨res, st', evs⟩
    have hA := sleepGet_body_append url rr rfetch (outcomes attempt) st []
      (by rfl)
    rw [hb] at hA
    simp only [List.append_nil] at hA
    cases res with
    | ok b => simpa using hA
    | error e => simpa using hA
  | succ fuel ih =>
    intro attempt st
    unfold get_html_go
    rcases hb : get_html_body url rr rfetch (outcomes attempt) st with ⟨res, st', evs⟩
    cases res with
    | ok b =>
      have hA := sleepGet_body_append url rr rfetch (outcomes attempt) st [] (by rfl)
      rw [hb] at hA
      simpa using hA
    | error e =>
      by_cases hr : _retry_on_http_error e = true
      · rcases hg : get_html_go url rr rfetch outcomes (attempt + 1) fuel st'
          with ⟨r', st'', evs'⟩
        have hih := ih (attempt + 1) st'
        rw [hg] at hih
        have hA := sleepGet_body_append url rr rfetch (outcomes attempt) st evs' hih
        rw [hb] at hA
        simp only [hr, hg]
        simpa using hA
      · have hA := sleepGet_body_append url rr rfetch (outcomes attempt) st [] (by rfl)
        rw [hb] at hA
        simp only [hr]
        simpa using hA

/-! ## Claim C8 -/

/-- C8: with the disable toggle set, `_polite_sleep` returns `0.0` and
performs no sleep; without the toggle it sleeps and returns the uniform
draw, which lies within the configured `[min, max]` bounds (default
`[0.5s, 1.5s]`); and it is invoked exactly once immediately before every
GET attempt in `get_html`, including retries (the trace restricted to
sleeps and GETs is an alternation of sleep-then-GET pairs, one per
attempt). -/
theorem polite_sleep_behavior :
    (∀ (getenv : String → Option String) (draw mn mx : ℚ),
      getenv "HTTP_DISABLE_DELAY" = some "1" →
      _polite_sleep getenv draw mn mx = (0, false)) ∧
    (∀ (getenv : String → Option String) (draw mn mx : ℚ),
      getenv "HTTP_DISABLE_DELAY" ≠ some "1" → mn ≤ draw → draw ≤ mx →
      _polite_sleep getenv draw mn mx = (draw, true) ∧ mn ≤ draw ∧ draw ≤ mx) ∧
    (∀ (url : Chars) (rr : Bool) (rfetch : Chars → RFetchResult)
      (outcomes : Nat → Except PyErr Chars) (st : RobotsState),
      sleepGetTrace (get_html url rr rfetch outcomes st).2.2 =
        (List.replicate ((get_html url rr rfetch outcomes st).2.2.count Event.get)
          [Event.sleep, Event.get]).flatten) := by
  refine ⟨?_, ?_, ?_⟩
  · intro getenv draw mn mx h
    unfold _polite_sleep
    rw [if_pos]
    exact beq_iff_eq.mpr h
  · intro getenv draw mn mx h hlo hhi
    refine ⟨?_, hlo, hhi⟩
    unfold _polite_sleep
    rw [if_neg]
    intro hb
    exact h (beq_iff_eq.mp hb)
  · intro url rr rfetch outcomes st
    unfold get_html
    exact get_html_go_sleep_get url rr rfetch outcomes 4 1 st

/-- Witness for C8: the toggle set, the toggle unset, and a concrete
`get_html` run. -/
theorem polite_sleep_behavior_witness :
    _polite_sleep (fun _ => some "1") (3 / 4) (1 / 2) (3 / 2) = (0, false) ∧
    _polite_sleep (fun _ => none) (3 / 4) (1 / 2) (3 / 2) = (3 / 4, true) ∧
    sleepGetTrace
        (get_html "https://example.com/x".data false (fun _ => .exc)
          (fun _ => .error .transport) initialRobotsState).2.2 =
      (List.replicate
        ((get_html "https://example.com/x".data false (fun _ => .exc)
          (fun _ => .error .transport) initialRobotsState).2.2.count Event.get)
        [Event.sleep, Event.get]).flatten :=
  ⟨polite_sleep_behavior.1 (fun _ => some "1") (3 / 4) (1 / 2) (3 / 2) rfl,
   (polite_sleep_behavior.2.1 (fun _ => none) (3 / 4) (1 / 2) (3 / 2) (by decide)
     (by norm_num) (by norm_num)).1,
   polite_sleep_behavior.2.2 "https://example.com/x".data false (fun _ => .exc)
     (fun _ => .error .transport) initialRobotsState⟩

theorem check_robots_allowed_fixpoint (url : Chars) (ua : Option Chars)
    (f : Chars → RFetchResult) (st : RobotsState) (res : Except PyErr Bool)
    (st' : RobotsState) (evs : List Event)
    (h : check_robots_allowed url ua f st = (res, st', evs)) :
    check_robots_allowed url ua f st' = (res, st', []) := by
  unfold check_robots_allowed at h ⊢
  cases hp : urlparse url [] with
  | error e =>
    rw [hp] at h
    simp only [Prod.mk.injEq] at h
    obtain ⟨h1, h2, h3⟩ := h
    subst h1; subst h2
    rfl
  | ok parsed =>
    rw [hp] at h
    simp only at h ⊢
    by_cases hn : (parsed.netloc == ([] : Chars)) = true
    · rw [if_pos hn] at h
      rw [if_pos hn]
      simp only [Prod.mk.injEq] at h
      obtain ⟨h1, h2, h3⟩ := h
      subst h1; subst h2
      rfl
    · rw [if_neg hn] at h
      rw [if_neg hn]
      cases hl : getCachedRobotParser st parsed.netloc with
      | some rp =>
        rw [hl] at h
        simp only [Prod.mk.injEq] at h
        obtain ⟨h1, h2, h3⟩ := h
        subst h1; subst h2
        rw [hl]
      | none =>
        rw [hl] at h
        simp only [Prod.mk.injEq] at h
        obtain ⟨h1, h2, h3⟩ := h
        subst h1; subst h2
        have hl' : getCachedRobotParser
            ⟨(parsed.netloc,
              match f (parsed.scheme ++ "://".data ++ parsed.netloc ++ "/robots.txt".data) with
              | .resp status body =>
                if status == 200 then emptyRFP.parse (pySplitlines body)
                else emptyRFP.parse []
              | .exc => emptyRFP.parse []) :: st.cache⟩ parsed.netloc =
            some (match f (parsed.scheme ++ "://".data ++ parsed.netloc ++ "/robots.txt".data) with
              | .resp status body =>
                if status == 200 then emptyRFP.parse (pySplitlines body)
                else emptyRFP.parse []
              | .exc => emptyRFP.parse []) := by
          unfold getCachedRobotParser
          simp [List.lookup]
        rw [hl']

theorem check_robots_allowed_preserves (url : Chars) (ua : Option Chars)
    (f : Chars → RFetchResult) (st : RobotsState) (n : Chars) (rp : RobotFileParser)
    (h : List.lookup n st.cache = some rp) :
    List.lookup n (check_robots_allowed url ua f st).2.1.cache = some rp := by
  unfold check_robots_allowed
  cases hp : urlparse url [] with
  | error e => exact h
  | ok parsed =>
    simp only
    by_cases hn : (parsed.netloc == ([] : Chars)) = true
    · rw [if_pos hn]
      exact h
    · rw [if_neg hn]
      cases hl : getCachedRobotParser st parsed.netloc with
      | some rp' => exact h
      | none =>
        simp only [List.lookup]
        by_cases heq : (n == parsed.netloc) = true
        · exfalso
          have : n = parsed.netloc := beq_iff_eq.mp heq
          subst this
          unfold getCachedRobotParser at hl
          rw [h] at hl
          exact Option.noConfusion hl
        · rw [Bool.not_eq_true] at heq
          rw [heq]
          exact h

theorem check_robots_allowed_fetch_count (url : Chars) (ua : Option Chars)
    (f : Chars → RFetchResult) (st : RobotsState) (n : Chars) :
    ((check_robots_allowed url ua f st).2.2.count (Event.robotsFetch n) ≤ 1) ∧
    (List.lookup n st.cache ≠ none →
      (check_robots_allowed url ua f st).2.2.count (Event.robotsFetch n) = 0) ∧
    ((check_robots_allowed url ua f st).2.2.count (Event.robotsFetch n) ≠ 0 →
      List.lookup n (check_robots_allowed url ua f st).2.1.cache ≠ none) := by
  unfold check_robots_allowed
  cases hp : urlparse url [] with
  | error e => exact ⟨by simp, fun _ => rfl, fun hc => absurd rfl hc⟩
  | ok parsed =>
    simp only
    by_cases hn : (parsed.netloc == ([] : Chars)) = true
    · rw [if_pos hn]
      exact ⟨by simp, fun _ => rfl, fun hc => absurd rfl hc⟩
    · rw [if_neg hn]
      cases hl : getCachedRobotParser st parsed.netloc with
      | some rp' => exact ⟨by simp, fun _ => rfl, fun hc => absurd rfl hc⟩
      | none =>
        simp only
        by_cases heq : (Event.robotsFetch parsed.netloc == Event.robotsFetch n) = true
        · have hnn : parsed.netloc = n := by
            have := beq_iff_eq.mp heq
            exact Event.robotsFetch.injEq .. ▸ this ▸ rfl
          subst hnn
          refine ⟨by simp [List.count_cons], ?_, ?_⟩
          · intro hcache
            exfalso
            unfold getCachedRobotParser at hl
            exact hcache hl
          · intro _
            simp only [List.lookup]
            rw [beq_self_eq_true]
            simp
        · have hcnt : ([Event.robotsFetch parsed.netloc].count (Event.robotsFetch n)) = 0 := by
            simp only [List.count_cons, List.count_nil]
            rw [if_neg heq]
          exact ⟨by rw [hcnt]; omega, fun _ => hcnt, fun hc => absurd hcnt hc⟩

theorem runChecks_preserves :
    ∀ (calls : List CheckCall) (st : RobotsState) (n : Chars) (rp : RobotFileParser),
    List.lookup n st.cache = some rp →
    List.lookup n (runChecks calls st).1.cache = some rp
  | [], st, n, rp, h => h
  | c :: rest, st, n, rp, h => by
    unfold runChecks
    rcases hc : check_robots_allowed c.url c.user_agent c.rfetch st with ⟨res, st', evs⟩
    have h1 : List.lookup n st'.cache = some rp := by
      have := check_robots_allowed_preserves c.url c.user_agent c.rfetch st n rp h
      rw [hc] at this
      exact this
    rcases hr : runChecks rest st' with ⟨st'', evs'⟩
    simp only
    rw [hr]
    have h2 := runChecks_preserves rest st' n rp h1
    rw [hr] at h2
    exact h2

theorem runChecks_fetch_bound :
    ∀ (calls : List CheckCall) (st : RobotsState) (n : Chars),
    ((runChecks calls st).2.count (Event.robotsFetch n) ≤ 1) ∧
    (List.lookup n st.cache ≠ none →
      (runChecks calls st).2.count (Event.robotsFetch n) = 0)
  | [], st, n => by
    unfold runChecks
    exact ⟨by simp, fun _ => rfl⟩
  | c :: rest, st, n => by
    unfold runChecks
    rcases hc : check_robots_allowed c.url c.user_agent c.rfetch st with ⟨res, st', evs⟩
    rcases hr : runChecks rest st' with ⟨st'', evs'⟩
    have hone := check_robots_allowed_fetch_count c.url c.user_agent c.rfetch st n
    rw [hc] at hone
    have hrest := runChecks_fetch_bound rest st' n
    rw [hr] at hrest
    simp only at hone hrest
    simp only
    rw [hr]
    simp only [List.count_append]
    constructor
    · by_cases h0 : evs.count (Event.robotsFetch n) = 0
      · rw [h0]
        omega
      · have h1 : evs.count (Event.robotsFetch n) = 1 := by
          have := hone.1
          omega
        have hcached : List.lookup n st'.cache ≠ none := hone.2.2 h0
        have := hrest.2 hcached
        omega
    · intro hcache
      have he : evs.count (Event.robotsFetch n) = 0 := hone.2.1 hcache
      have hcached' : List.lookup n st'.cache ≠ none := by
        obtain ⟨rp, hrp⟩ := Option.ne_none_iff_exists'.mp hcache
        have := check_robots_allowed_preserves c.url c.user_agent c.rfetch st n rp hrp
        rw [hc] at this
        rw [this]
        exact Option.noConfusion
      have := hrest.2 hcached'
      omega

/-! ## Claim C5 -/

/-- C5: for every host, at most one robots.txt ruleset is ever fetched over
any sequence of `check_robots_allowed` calls starting from the empty
module-level cache (second and later calls against a cached host hit the
cache), and a cached entry is never mutated or replaced after creation: it
is returned unchanged by every later lookup for the remainder of the
run. -/
theorem robots_cache_single_fetch :
    (∀ (calls : List CheckCall) (n : Chars),
      (runChecks calls initialRobotsState).2.count (Event.robotsFetch n) ≤ 1) ∧
    (∀ (calls : List CheckCall) (st : RobotsState) (n : Chars) (rp : RobotFileParser),
      List.lookup n st.cache = some rp →
      List.lookup n (runChecks calls st).1.cache = some rp) :=
  ⟨fun calls n => (runChecks_fetch_bound calls initialRobotsState n).1,
   fun calls st n rp h => runChecks_preserves calls st n rp h⟩

/-- Witness for C5: two calls against the same host fetch robots.txt once,
and the cached entry survives both calls. -/
theorem robots_cache_single_fetch_witness :
    (runChecks
      [⟨"https://example.com/page1".data, none, fun _ => .exc⟩,
       ⟨"https://example.com/page2".data, none, fun _ => .exc⟩]
      initialRobotsState).2.count (Event.robotsFetch "example.com".data) ≤ 1 ∧
    List.lookup "example.com".data
      (runChecks
        [⟨"https://example.com/page2".data, none, fun _ => .exc⟩]
        ⟨[("example.com".data, allowAllParser)]⟩).1.cache = some allowAllParser :=
  ⟨robots_cache_single_fetch.1
      [⟨"https://example.com/page1".data, none, fun _ => .exc⟩,
       ⟨"https://example.com/page2".data, none, fun _ => .exc⟩]
      "example.com".data,
   robots_cache_single_fetch.2
      [⟨"https://example.com/page2".data, none, fun _ => .exc⟩]
      ⟨[("example.com".data, allowAllParser)]⟩
      "example.com".data allowAllParser (by decide)⟩

theorem get_html_go_unfold (url : Chars) (rr : Bool)
    (rfetch : Chars → RFetchResult) (outcomes : Nat → Except PyErr Chars)
    (attempt fuel : Nat) (st : RobotsState) :
    get_html_go url rr rfetch outcomes attempt fuel st =
      (match get_html_body url rr rfetch (outcomes attempt) st with
      | (.ok b, st', evs) => (.ok b, st', evs)
      | (.error e, st', evs) =>
        match fuel with
        | 0 => (.error e, st', evs)
        | fuel' + 1 =>
          if _retry_on_http_error e then
            match get_html_go url rr rfetch outcomes (attempt + 1) fuel' st' with
            | (r, st'', evs') => (r, st'', evs ++ evs')
          else (.error e, st', evs)) := by
  conv_lhs => unfold get_html_go

theorem get_html_body_unfold (url : Chars) (rr : Bool)
    (rfetch : Chars → RFetchResult) (outcome : Except PyErr Chars)
    (st : RobotsState) :
    get_html_body url rr rfetch outcome st =
      (match check_robots_allowed url none rfetch st with
      | (.error e, st', evs) => (.error e, st', evs)
      | (.ok allowed, st', evs) =>
        if rr && !allowed then
          (.error (.permissionError url), st', evs)
        else
          match outcome with
          | .ok body => (.ok body, st', evs ++ [Event.sleep, Event.get])
          | .error e => (.error e, st', evs ++ [Event.sleep, Event.get])) := rfl

theorem get_html_unfold_proceed (url : Chars) (rr : Bool)
    (rfetch : Chars → RFetchResult) (outcomes : Nat → Except PyErr Chars)
    (st st' : RobotsState) (evs : List Event) (v : Bool)
    (hd : check_robots_allowed url none rfetch st = (.ok v, st', evs))
    (hnb : (rr && !v) = false) :
    get_html url rr rfetch outcomes st =
      (match outcomes 1 with
      | .ok b => (.ok b, st', evs ++ [Event.sleep, Event.get])
      | .error e =>
        if _retry_on_http_error e then
          match get_html_go url rr rfetch outcomes 2 3 st' with
          | (r, st'', evs') => (r, st'', (evs ++ [Event.sleep, Event.get]) ++ evs')
        else (.error e, st', evs ++ [Event.sleep, Event.get])) := by
  unfold get_html
  rw [get_html_go_unfold, get_html_body_unfold, hd]
  simp only [hnb, Bool.false_eq_true, if_false]
  cases ho : outcomes 1 with
  | ok b => rfl
  | error e => rfl

/-! ## Claim C2 -/

/-- C2: for every URL that robots.txt disallows, `get_html` with
`respect_robots = true` raises a `PermissionError` (an error kind distinct
from the HTTP-status and transport kinds) immediately: no GET of the URL
is issued and `_polite_sleep` is never invoked.  With
`respect_robots = false` the GET is issued (the violation is only
logged). -/
theorem get_html_robots_enforcement (url : Chars)
    (rfetch : Chars → RFetchResult) (outcomes : Nat → Except PyErr Chars)
    (st st' : RobotsState) (evs : List Event)
    (hd : check_robots_allowed url none rfetch st = (.ok false, st', evs)) :
    get_html url true rfetch outcomes st = (.error (.permissionError url), st', evs) ∧
    evs.count Event.get = 0 ∧ evs.count Event.sleep = 0 ∧
    (∀ r, PyErr.permissionError url ≠ PyErr.httpError r) ∧
    PyErr.permissionError url ≠ PyErr.transport ∧
    1 ≤ (get_html url false rfetch outcomes st).2.2.count Event.get := by
  have hcnt := check_robots_allowed_no_sleep_get url none rfetch st
  rw [hd] at hcnt
  simp only at hcnt
  refine ⟨?_, hcnt.2.1, hcnt.1, fun r => by simp, by simp, ?_⟩
  · unfold get_html
    rw [get_html_go_unfold, get_html_body_unfold, hd]
    rfl
  · rw [get_html_unfold_proceed url false rfetch outcomes st st' evs false hd rfl]
    cases ho : outcomes 1 with
    | ok b =>
      simp only [List.count_append]
      rw [show ([Event.sleep, Event.get].count Event.get) = 1 from rfl]
      omega
    | error e =>
      simp only
      by_cases hre : _retry_on_http_error e = true
      · rw [if_pos hre]
        rcases hg : get_html_go url false rfetch outcomes 2 3 st' with ⟨r, st'', evs'⟩
        simp only [List.count_append]
        rw [show ([Event.sleep, Event.get].count Event.get) = 1 from rfl]
        omega
      · rw [if_neg hre]
        simp only [List.count_append]
        rw [show ([Event.sleep, Event.get].count Event.get) = 1 from rfl]
        omega

/-- Witness for C2 at a concrete disallowed URL. -/
theorem get_html_robots_enforcement_witness :
    get_html "https://example.com/private/page".data true
        (fun _ => .resp 200 "User-agent: *\nDisallow: /private/".data)
        (fun _ => .ok "body".data) initialRobotsState =
      (.error (.permissionError "https://example.com/private/page".data),
       ⟨[("example.com".data,
          emptyRFP.parse (pySplitlines "User-agent: *\nDisallow: /private/".data))]⟩,
       [Event.robotsFetch "example.com".data]) :=
  (get_html_robots_enforcement "https://example.com/private/page".data
    (fun _ => .resp 200 "User-agent: *\nDisallow: /private/".data)
    (fun _ => .ok "body".data) initialRobotsState
    ⟨[("example.com".data,
       emptyRFP.parse (pySplitlines "User-agent: *\nDisallow: /private/".data))]⟩
    [Event.robotsFetch "example.com".data] (by decide)).1

/-! ## Claim C6 -/

/-- C6: a transport-level failure (connect/read timeout, connection
refused/reset, DNS failure) raised by the GET in `get_html` propagates to
the caller immediately after exactly one attempt: `_retry_on_http_error`
rejects transport errors, so they are never retried, unlike HTTP-status
errors in the retryable set. -/
theorem get_html_no_retry_on_transport (url : Chars) (rr : Bool)
    (rfetch : Chars → RFetchResult) (outcomes : Nat → Except PyErr Chars)
    (st st' : RobotsState) (evs : List Event) (v : Bool)
    (hd : check_robots_allowed url none rfetch st = (.ok v, st', evs))
    (hv : rr = true → v = true)
    (ht : outcomes 1 = .error .transport) :
    (get_html url rr rfetch outcomes st).1 = .error .transport ∧
    (get_html url rr rfetch outcomes st).2.2.count Event.get = 1 ∧
    _retry_on_http_error .transport = false ∧
    _retry_on_http_error (.httpError (some 500)) = true := by
  have hnb : (rr && !v) = false := by
    cases rr with
    | false => rfl
    | true => rw [hv rfl]; rfl
  have hcnt := check_robots_allowed_no_sleep_get url none rfetch st
  rw [hd] at hcnt
  simp only at hcnt
  rw [get_html_unfold_proceed url rr rfetch outcomes st st' evs v hd hnb, ht]
  simp only
  rw [if_neg (by decide : ¬ _retry_on_http_error PyErr.transport = true)]
  refine ⟨rfl, ?_, rfl, rfl⟩
  simp only [List.count_append, hcnt.2.1]
  rfl

/-- Witness for C6: a connection failure on the first attempt of a
concrete call. -/
theorem get_html_no_retry_on_transport_witness :
    (get_html "https://example.com/x".data false (fun _ => .exc)
      (fun _ => .error .transport) initialRobotsState).1 = .error .transport ∧
    (get_html "https://example.com/x".data false (fun _ => .exc)
      (fun _ => .error .transport) initialRobotsState).2.2.count Event.get = 1 ∧
    _retry_on_http_error .transport = false ∧
    _retry_on_http_error (.httpError (some 500)) = true :=
  get_html_no_retry_on_transport "https://example.com/x".data false
    (fun _ => .exc) (fun _ => .error .transport) initialRobotsState
    ⟨[("example.com".data, allowAllParser)]⟩ [Event.robotsFetch "example.com".data]
    true (by decide) (fun h => Bool.noConfusion h) rfl

theorem stopIdxAux_ge (o : Nat → Except PyErr Chars) :
    ∀ (fuel a : Nat), a ≤ stopIdxAux o a fuel
  | 0, a => Nat.le_refl a
  | fuel + 1, a => by
    unfold stopIdxAux
    split
    · exact Nat.le_refl a
    · exact Nat.le_trans (Nat.le_succ a) (stopIdxAux_ge o fuel (a + 1))

theorem stopIdxAux_le (o : Nat → Except PyErr Chars) :
    ∀ (fuel a : Nat), stopIdxAux o a fuel ≤ a + fuel
  | 0, a => Nat.le_refl a
  | fuel + 1, a => by
    unfold stopIdxAux
    split
    · exact Nat.le_add_right a (fuel + 1)
    · have := stopIdxAux_le o fuel (a + 1)
      omega

theorem stopIdxAux_before (o : Nat → Except PyErr Chars) :
    ∀ (fuel a k : Nat), a ≤ k → k < stopIdxAux o a fuel →
      stopsAttempt (o k) = false
  | 0, a, k, h1, h2 => absurd (Nat.lt_of_le_of_lt h1 h2) (Nat.lt_irrefl a)
  | fuel + 1, a, k, h1, h2 => by
    unfold stopIdxAux at h2
    by_cases hs : stopsAttempt (o a) = true
    · rw [if_pos hs] at h2
      exact absurd (Nat.lt_of_le_of_lt h1 h2) (Nat.lt_irrefl a)
    · rw [if_neg hs] at h2
      rcases Nat.eq_or_lt_of_le h1 with heq | hlt
      · simp only [Bool.not_eq_true] at hs
        exact heq ▸ hs
      · exact stopIdxAux_before o fuel (a + 1) k hlt h2

theorem stopIdxAux_at (o : Nat → Except PyErr Chars) :
    ∀ (fuel a : Nat), stopIdxAux o a fuel < a + fuel →
      stopsAttempt (o (stopIdxAux o a fuel)) = true
  | 0, a, h => absurd h (by simp [stopIdxAux])
  | fuel + 1, a, h => by
    unfold stopIdxAux at h ⊢
    by_cases hs : stopsAttempt (o a) = true
    · rw [if_pos hs] at h ⊢
      exact hs
    · rw [if_neg hs] at h ⊢
      exact stopIdxAux_at o fuel (a + 1) (by omega)

theorem count_get_flatten_replicate :
    ∀ k : Nat,
      ((List.replicate k [Event.sleep, Event.get]).flatten).count Event.get = k
  | 0 => rfl
  | k + 1 => by
    rw [List.replicate_succ, List.flatten_cons, List.count_append,
      count_get_flatten_replicate k]
    have hc1 : List.count Event.get [Event.sleep, Event.get] = 1 := by decide
    rw [hc1]
    omega

theorem go_characterize (url : Chars) (rr : Bool)
    (rfetch : Chars → RFetchResult) (outcomes : Nat → Except PyErr Chars)
    (v : Bool) (st' : RobotsState) (hnb : (rr && !v) = false)
    (hstable : check_robots_allowed url none rfetch st' = (.ok v, st', [])) :
    ∀ (fuel attempt : Nat) (st : RobotsState) (evs0 : List Event),
    check_robots_allowed url none rfetch st = (.ok v, st', evs0) →
    get_html_go url rr rfetch outcomes attempt fuel st =
      (outcomes (stopIdxAux outcomes attempt fuel), st',
       evs0 ++ (List.replicate (stopIdxAux outcomes attempt fuel + 1 - attempt)
         [Event.sleep, Event.get]).flatten)
  | 0, attempt, st, evs0, hc => by
    rw [get_html_go_unfold, get_html_body_unfold, hc]
    simp only [hnb, Bool.false_eq_true, if_false]
    have h1 : stopIdxAux outcomes attempt 0 = attempt := rfl
    have h2 : attempt + 1 - attempt = 1 := by omega
    rw [h1, h2]
    cases ho : outcomes attempt with
    | ok b => simp
    | error e => simp
  | fuel + 1, attempt, st, evs0, hc => by
    rw [get_html_go_unfold, get_html_body_unfold, hc]
    simp only [hnb, Bool.false_eq_true, if_false]
    cases ho : outcomes attempt with
    | ok b =>
      have hs : stopsAttempt (outcomes attempt) = true := by
        unfold stopsAttempt
        rw [ho]
      have h1 : stopIdxAux outcomes attempt (fuel + 1) = attempt := by
        unfold stopIdxAux
        rw [if_pos hs]
      have h2 : attempt + 1 - attempt = 1 := by omega
      rw [h1, h2, ho]
      simp
    | error e =>
      simp only
      by_cases hre : _retry_on_http_error e = true
      · have hs : ¬ stopsAttempt (outcomes attempt) = true := by
          unfold stopsAttempt
          rw [ho]
          simp [hre]
        have h1 : stopIdxAux outcomes attempt (fuel + 1) =
            stopIdxAux outcomes (attempt + 1) fuel := by
          rw [show stopIdxAux outcomes attempt (fuel + 1) =
            (if stopsAttempt (outcomes attempt) = true then attempt
             else stopIdxAux outcomes (attempt + 1) fuel) from rfl]
          rw [if_neg hs]
        rw [if_pos hre]
        rw [go_characterize url rr rfetch outcomes v st' hnb hstable fuel
          (attempt + 1) st' [] hstable]
        have hge := stopIdxAux_ge outcomes fuel (attempt + 1)
        have h2 : stopIdxAux outcomes (attempt + 1) fuel + 1 - attempt =
            (stopIdxAux outcomes (attempt + 1) fuel + 1 - (attempt + 1)) + 1 := by
          omega
        rw [h1, h2, List.replicate_succ, List.flatten_cons]
        simp
      · rw [if_neg hre]
        have hs : stopsAttempt (outcomes attempt) = true := by
          unfold stopsAttempt
          rw [ho]
          simp [hre]
        have h1 : stopIdxAux outcomes attempt (fuel + 1) = attempt := by
          rw [show stopIdxAux outcomes attempt (fuel + 1) =
            (if stopsAttempt (outcomes attempt) = true then attempt
             else stopIdxAux outcomes (attempt + 1) fuel) from rfl]
          rw [if_pos hs]
        have h2 : attempt + 1 - attempt = 1 := by omega
        rw [h1, h2, ho]
        simp

/-! ## Claim C1 -/

/-- C1: in `get_html`, an attempt is retried if and only if it raised an
HTTP-status error whose status code is in the retryable set (an attempt
stops the loop exactly when it succeeds or `_retry_on_http_error` rejects
its exception); at most 5 total attempts are made, and the result is the
outcome of the first stopping attempt (capped at attempt 5), so after a
5th attempt that fails with a retryable status the last such error is
re-raised unchanged, still carrying its status code. -/
theorem get_html_retry_iff (url : Chars) (rr : Bool)
    (rfetch : Chars → RFetchResult) (outcomes : Nat → Except PyErr Chars)
    (st st' : RobotsState) (evs0 : List Event) (v : Bool)
    (hd : check_robots_allowed url none rfetch st = (.ok v, st', evs0))
    (hv : rr = true → v = true) :
    (get_html url rr rfetch outcomes st).1 =
        outcomes (stop_attempt_index outcomes) ∧
    (get_html url rr rfetch outcomes st).2.2.count Event.get =
        stop_attempt_index outcomes ∧
    1 ≤ stop_attempt_index outcomes ∧ stop_attempt_index outcomes ≤ 5 ∧
    (∀ k, 1 ≤ k → k < stop_attempt_index outcomes →
        stopsAttempt (outcomes k) = false) ∧
    (stop_attempt_index outcomes < 5 →
        stopsAttempt (outcomes (stop_attempt_index outcomes)) = true) := by
  have hnb : (rr && !v) = false := by
    cases rr with
    | false => rfl
    | true => rw [hv rfl]; rfl
  have hstable := check_robots_allowed_fixpoint url none rfetch st _ _ _ hd
  have hcnt := check_robots_allowed_no_sleep_get url none rfetch st
  rw [hd] at hcnt
  simp only at hcnt
  have hchar := go_characterize url rr rfetch outcomes v st' hnb hstable 4 1 st evs0 hd
  unfold get_html
  rw [hchar]
  have hidx : stopIdxAux outcomes 1 4 = stop_attempt_index outcomes := rfl
  refine ⟨by rw [hidx], ?_, ?_, ?_, ?_, ?_⟩
  · simp only [List.count_append, hcnt.2.1, count_get_flatten_replicate]
    rw [hidx]
    have := stopIdxAux_ge outcomes 4 1
    omega
  · exact hidx ▸ stopIdxAux_ge outcomes 4 1
  · exact hidx ▸ stopIdxAux_le outcomes 4 1
  · intro k h1 h2
    exact stopIdxAux_before outcomes 4 1 k h1 (hidx ▸ h2)
  · intro hlt
    exact hidx ▸ stopIdxAux_at outcomes 4 1 (hidx ▸ hlt)

/-- Witness for C1: five persistent 503 responses exhaust the attempt cap
and the final error carries status 503. -/
theorem get_html_retry_iff_witness :
    (get_html "https://example.com/x".data false (fun _ => .exc)
      (fun _ => .error (.httpError (some 503))) initialRobotsState).1 =
        (fun _ => Except.error (PyErr.httpError (some 503)) :
          Nat → Except PyErr Chars) (stop_attempt_index
            (fun _ => .error (.httpError (some 503)))) ∧
    (get_html "https://example.com/x".data false (fun _ => .exc)
      (fun _ => .error (.httpError (some 503))) initialRobotsState).2.2.count
        Event.get = stop_attempt_index (fun _ => .error (.httpError (some 503))) ∧
    1 ≤ stop_attempt_index
        (fun _ => Except.error (PyErr.httpError (some 503)) : Nat → Except PyErr Chars) ∧
    stop_attempt_index
        (fun _ => Except.error (PyErr.httpError (some 503)) : Nat → Except PyErr Chars) ≤ 5 ∧
    (∀ k, 1 ≤ k → k < stop_attempt_index
        (fun _ => Except.error (PyErr.httpError (some 503)) : Nat → Except PyErr Chars) →
        stopsAttempt ((fun _ => Except.error (PyErr.httpError (some 503)) :
          Nat → Except PyErr Chars) k) = false) ∧
    (stop_attempt_index
        (fun _ => Except.error (PyErr.httpError (some 503)) : Nat → Except PyErr Chars) < 5 →
        stopsAttempt ((fun _ => Except.error (PyErr.httpError (some 503)) :
          Nat → Except PyErr Chars) (stop_attempt_index
            (fun _ => Except.error (PyErr.httpError (some 503)) :
              Nat → Except PyErr Chars))) = true) :=
  get_html_retry_iff "https://example.com/x".data false (fun _ => .exc)
    (fun _ => .error (.httpError (some 503))) initialRobotsState
    ⟨[("example.com".data, allowAllParser)]⟩ [Event.robotsFetch "example.com".data]
    true (by decide) (fun _ => rfl)

theorem can_fetch_allowAll (ua url : Chars) (p : ParseResult)
    (h : urlparse url [] = .ok p) :
    allowAllParser.can_fetch ua url = .ok true := by
  rw [show allowAllParser = ⟨[], none, false, false, true⟩ from rfl]
  unfold RobotFileParser.can_fetch
  rw [h]
  simp [List.find?]

/-! ## Claim C4 (amended) -/

/-- C4 (amended): if the robots.txt fetch for a host fails with a
transport error or returns any status other than 200, an empty ruleset
that allows everything is cached for that host, so `check_robots_allowed`
returns `true` for that URL and for every subsequent query against that
host; likewise, for a URL that parses with an empty authority it returns
`true` without caching anything.  (The claim's further assertion that
`check_robots_allowed` never raises is refuted by
`check_robots_allowed_raises_on_invalid_ipv6`: a URL whose authority has
mismatched IPv6 brackets makes `urlparse` raise `ValueError`, which
propagates.) -/
theorem check_robots_allowed_fail_open :
    (∀ (url : Chars) (ua : Option Chars) (f : Chars → RFetchResult)
      (st : RobotsState) (p : ParseResult),
      urlparse url [] = .ok p → p.netloc = [] →
      check_robots_allowed url ua f st = (.ok true, st, [])) ∧
    (∀ (url : Chars) (ua : Option Chars) (f : Chars → RFetchResult)
      (st : RobotsState) (p : ParseResult),
      urlparse url [] = .ok p → p.netloc ≠ [] →
      List.lookup p.netloc st.cache = none →
      robotsFetchFailed
        (f (p.scheme ++ "://".data ++ p.netloc ++ "/robots.txt".data)) →
      check_robots_allowed url ua f st =
        (.ok true, ⟨(p.netloc, allowAllParser) :: st.cache⟩,
         [.robotsFetch p.netloc]) ∧
      (∀ (later : List CheckCall) (url' : Chars) (ua' : Option Chars)
        (f' : Chars → RFetchResult) (p' : ParseResult),
        urlparse url' [] = .ok p' → p'.netloc = p.netloc →
        (check_robots_allowed url' ua' f'
          (runChecks later
            ⟨(p.netloc, allowAllParser) :: st.cache⟩).1).1 = .ok true)) := by
  constructor
  · intro url ua f st p h hn
    unfold check_robots_allowed
    rw [h]
    simp only
    rw [if_pos (beq_iff_eq.mpr hn)]
  · intro url ua f st p h hn hl hfail
    have hbeq : ¬ (p.netloc == ([] : Chars)) = true := fun hb => hn (beq_iff_eq.mp hb)
    have hrp : (match f (p.scheme ++ "://".data ++ p.netloc ++ "/robots.txt".data) with
        | RFetchResult.resp status body =>
          if (status == 200) = true then emptyRFP.parse (pySplitlines body)
          else emptyRFP.parse []
        | RFetchResult.exc => emptyRFP.parse []) = allowAllParser := by
      unfold robotsFetchFailed at hfail
      cases hf : f (p.scheme ++ "://".data ++ p.netloc ++ "/robots.txt".data) with
      | resp status body =>
        rw [hf] at hfail
        simp only
        rw [if_neg (fun hb => hfail (beq_iff_eq.mp hb))]
        rfl
      | exc => rfl
    have hmain : check_robots_allowed url ua f st =
        (.ok true, ⟨(p.netloc, allowAllParser) :: st.cache⟩,
         [.robotsFetch p.netloc]) := by
      unfold check_robots_allowed
      rw [h]
      simp only
      rw [if_neg hbeq]
      rw [show getCachedRobotParser st p.netloc = List.lookup p.netloc st.cache from rfl]
      rw [hl]
      simp only
      rw [hrp]
      rw [can_fetch_allowAll (ua.getD DEFAULT_UA) url p h]
    refine ⟨hmain, ?_⟩
    intro later url' ua' f' p' h' hsame
    have hcached : List.lookup p.netloc
        (⟨(p.netloc, allowAllParser) :: st.cache⟩ : RobotsState).cache =
        some allowAllParser := by
      simp [List.lookup]
    have hpres := runChecks_preserves later
      ⟨(p.netloc, allowAllParser) :: st.cache⟩ p.netloc allowAllParser hcached
    unfold check_robots_allowed
    rw [h']
    simp only
    rw [if_neg (fun hb => hn (hsame ▸ beq_iff_eq.mp hb))]
    rw [show getCachedRobotParser (runChecks later
        ⟨(p.netloc, allowAllParser) :: st.cache⟩).1 p'.netloc =
      List.lookup p'.netloc (runChecks later
        ⟨(p.netloc, allowAllParser) :: st.cache⟩).1.cache from rfl]
    rw [hsame, hpres]
    simp only
    rw [can_fetch_allowAll (ua'.getD DEFAULT_UA) url' p' h']

/-- Counterexample to C4 as stated: `check_robots_allowed` raises a
`ValueError` (it does not return a Boolean) for the URL `"http://["`,
whose authority has a mismatched IPv6 bracket. -/
theorem check_robots_allowed_raises_on_invalid_ipv6 :
    (check_robots_allowed "http://[".data none (fun _ => .exc)
      initialRobotsState).1 = .error .valueError := by decide

/-- Witness for C4 (amended): a transport failure fetching robots.txt of a
concrete host caches the allow-everything parser and yields `true`. -/
theorem check_robots_allowed_fail_open_witness :
    check_robots_allowed "https://example.com/anything".data none
        (fun _ => .exc) initialRobotsState =
      (.ok true, ⟨[("example.com".data, allowAllParser)]⟩,
       [.robotsFetch "example.com".data]) :=
  (check_robots_allowed_fail_open.2 "https://example.com/anything".data none
    (fun _ => .exc) initialRobotsState
    ⟨"https".data, "example.com".data, "/anything".data, [], [], []⟩
    (by decide) (by decide) rfl trivial).1

/-! ## Claim C7 (amended) -/

/-- C7 (amended): `harvest_links` degrades to an empty list in each
guarded case: given a nil/missing session it returns an empty list without
attempting any fetch; given any fetch error from `get_html` it returns an
empty list; and given returned markup that is empty or whose stripped
length is under 100 characters it returns an empty list (each with a
logged reason).  (The claim's blanket "never raises to its caller" is
refuted by `harvest_links_raises_on_invalid_ipv6_href`: a candidate href
whose resolution has mismatched IPv6 brackets in its authority makes
`urljoin` raise `ValueError` inside the normalisation loop, and nothing
catches it.) -/
theorem harvest_links_degrades :
    (∀ (fetchResult : Except PyErr Chars) (soup : Chars → List (Option Chars)),
      harvest_links none fetchResult soup = (.ok [], false)) ∧
    (∀ (e : PyErr) (soup : Chars → List (Option Chars)),
      harvest_links (some ()) (.error e) soup = (.ok [], true)) ∧
    (∀ (html : Chars) (soup : Chars → List (Option Chars)),
      html = [] ∨ (pyStripChars html).length < 100 →
      harvest_links (some ()) (.ok html) soup = (.ok [], true)) := by
  refine ⟨fun _ _ => rfl, fun _ _ => rfl, ?_⟩
  intro html soup hguard
  have hcond : (html == ([] : Chars) ||
      decide ((pyStripChars html).length < 100)) = true := by
    rcases hguard with hempty | hshort
    · rw [beq_iff_eq.mpr hempty]
      rfl
    · rw [decide_eq_true hshort]
      simp
  unfold harvest_links
  simp only
  rw [if_pos hcond]

/-- Counterexample to C7 as stated: with a valid session and plausible
markup containing the single anchor `//[/aktier/om-aktien/x`,
`harvest_links` raises `ValueError` instead of returning a list. -/
theorem harvest_links_raises_on_invalid_ipv6_href :
    (harvest_links (some ()) (.ok longHtml)
      (fun _ => [some "//[/aktier/om-aktien/x".data])).1 =
      .error .valueError := by decide

/-- Witness for C7 (amended) at concrete degenerate inputs. -/
theorem harvest_links_degrades_witness :
    harvest_links none (.ok longHtml) (fun _ => robustnessAnchors) =
        (.ok [], false) ∧
    harvest_links (some ()) (.error .transport) (fun _ => robustnessAnchors) =
        (.ok [], true) ∧
    harvest_links (some ()) (.ok "<html></html>".data)
        (fun _ => robustnessAnchors) = (.ok [], true) :=
  ⟨harvest_links_degrades.1 (.ok longHtml) (fun _ => robustnessAnchors),
   harvest_links_degrades.2.1 .transport (fun _ => robustnessAnchors),
   harvest_links_degrades.2.2 "<html></html>".data (fun _ => robustnessAnchors)
     (Or.inr (by decide))⟩

theorem dropWhile_nil_or_head (p : Char → Bool) (l : Chars) :
    l.dropWhile p = [] ∨ ∃ c t, l.dropWhile p = c :: t ∧ p c = false := by
  induction l with
  | nil => exact Or.inl rfl
  | cons c t ih =>
    by_cases h : p c = true
    · simpa [List.dropWhile_cons, h] using ih
    · exact Or.inr ⟨c, t, by simp [List.dropWhile_cons, h],
        Bool.not_eq_true _ ▸ h⟩

theorem pySplitOnce_head_sep (sep : Char) (t : Chars) :
    pySplitOnce sep (sep :: t) = ([], t) := by
  unfold pySplitOnce
  rw [if_pos (by simp : ((sep :: t).any (· == sep)) = true)]
  simp [List.takeWhile_cons, List.dropWhile_cons]

theorem pySplitOnce_head_keep (sep h : Char) (t : Chars) (hne : h ≠ sep) :
    ∃ t', (pySplitOnce sep (h :: t)).1 = h :: t' := by
  unfold pySplitOnce
  by_cases hany : ((h :: t).any (· == sep)) = true
  · rw [if_pos hany]
    refine ⟨t.takeWhile (fun c => c != sep), ?_⟩
    simp [List.takeWhile_cons, hne]
  · rw [if_neg hany]
    exact ⟨t, rfl⟩

theorem splitScheme_snd_mem (u : Chars) {x : Char}
    (h : x ∈ (splitScheme u).2) : x ∈ u := by
  unfold splitScheme at h
  dsimp only at h
  split at h
  · split at h
    · rename_i heq _ _
      have h1 : x ∈ (u.dropWhile (fun c => c != ':')) := by
        rw [heq]
        exact List.mem_cons_of_mem _ h
      exact mem_of_mem_dropWhile h1
    · exact h
  · exact h

theorem mem_preprocessUrl {u : Chars} {x : Char} (h : x ∈ preprocessUrl u) :
    isUnsafeByte x = false := by
  unfold preprocessUrl at h
  have := (List.mem_filter.mp h).2
  simpa using this

theorem urlsplit_components (u ds : Chars) (sp : SplitResult)
    (h : urlsplit u ds = .ok sp) :
    '#' ∉ sp.path ∧ '?' ∉ sp.path ∧ '#' ∉ sp.query ∧
    (∀ x ∈ sp.path, isUnsafeByte x = false) ∧
    (∀ x ∈ sp.query, isUnsafeByte x = false) ∧
    (sp.netloc ≠ [] → sp.path = [] ∨ ∃ t, sp.path = '/' :: t) := by
  unfold urlsplit at h
  dsimp only at h
  have hmemU : ∀ y ∈ (splitScheme (preprocessUrl u)).2, isUnsafeByte y = false :=
    fun y hy => mem_preprocessUrl (splitScheme_snd_mem _ hy)
  split at h
  · split at h
    · exact absurd h (by simp)
    · simp only [Except.ok.injEq] at h
      subst h
      rename_i hsl _
      set url1 := (splitScheme (preprocessUrl u)).2 with hurl1
      set rest := (url1.drop 2).dropWhile notDelim with hrest
      have hmemRest : ∀ y ∈ rest, isUnsafeByte y = false := by
        intro y hy
        exact hmemU y (List.drop_subset 2 url1 (mem_of_mem_dropWhile hy))
      have hpf_sub : ∀ y ∈ (pySplitOnce '#' rest).1, y ∈ rest :=
        fun y hy => mem_of_mem_pySplitOnce_fst hy
      have hpath_sub : ∀ y ∈ (pySplitOnce '?' (pySplitOnce '#' rest).1).1, y ∈ rest :=
        fun y hy => hpf_sub y (mem_of_mem_pySplitOnce_fst hy)
      have hq_sub : ∀ y ∈ (pySplitOnce '?' (pySplitOnce '#' rest).1).2, y ∈ rest :=
        fun y hy => hpf_sub y (mem_of_mem_pySplitOnce_snd hy)
      refine ⟨?_, ?_, ?_, ?_, ?_, ?_⟩
      · intro hmem
        exact pySplitOnce_fst_not_mem '#' rest
          (mem_of_mem_pySplitOnce_fst hmem)
      · exact pySplitOnce_fst_not_mem '?' _
      · intro hmem
        exact pySplitOnce_fst_not_mem '#' rest
          (mem_of_mem_pySplitOnce_snd hmem)
      · exact fun x hx => hmemRest x (hpath_sub x hx)
      · exact fun x hx => hmemRest x (hq_sub x hx)
      · intro _
        rcases dropWhile_nil_or_head notDelim (url1.drop 2) with hnil | ⟨c, t, hct, hc⟩
        · rw [← hrest] at hnil
          rw [hnil]
          left
          rw [pySplitOnce_none '#' [] (by simp), pySplitOnce_none '?' [] (by simp)]
        · rw [← hrest] at hct
          have hc3 : c = '/' ∨ c = '?' ∨ c = '#' := by
            unfold notDelim at hc
            simp at hc
            tauto
          rcases hc3 with rfl | rfl | rfl
          · right
            rw [hct]
            obtain ⟨t1, ht1⟩ := pySplitOnce_head_keep '#' '/' t (by decide)
            rw [ht1]
            obtain ⟨t2, ht2⟩ := pySplitOnce_head_keep '?' '/' t1 (by decide)
            rw [ht2]
            exact ⟨t2, rfl⟩
          · left
            rw [hct]
            obtain ⟨t1, ht1⟩ := pySplitOnce_head_keep '#' '?' t (by decide)
            rw [ht1, pySplitOnce_head_sep '?' t1]
          · left
            rw [hct, pySplitOnce_head_sep '#' t,
              pySplitOnce_none '?' [] (by simp)]
  · simp only [Except.ok.injEq] at h
    subst h
    refine ⟨?_, ?_, ?_, ?_, ?_, fun hne => absurd rfl hne⟩
    · intro hmem
      exact pySplitOnce_fst_not_mem '#' _ (mem_of_mem_pySplitOnce_fst hmem)
    · exact pySplitOnce_fst_not_mem '?' _
    · intro hmem
      exact pySplitOnce_fst_not_mem '#' _ (mem_of_mem_pySplitOnce_snd hmem)
    · intro x hx
      exact hmemU x (mem_of_mem_pySplitOnce_fst (mem_of_mem_pySplitOnce_fst hx))
    · intro x hx
      exact hmemU x (mem_of_mem_pySplitOnce_fst (mem_of_mem_pySplitOnce_snd hx))

theorem preprocessUrl_id (l : Chars) (h1 : ∀ x ∈ l, isUnsafeByte x = false)
    (h2 : ∀ c, l.head? = some c → isC0OrSpace c = false) :
    preprocessUrl l = l := by
  unfold preprocessUrl
  have hd : l.dropWhile isC0OrSpace = l := by
    cases l with
    | nil => rfl
    | cons c t =>
      rw [List.dropWhile_cons, if_neg]
      rw [h2 c rfl]
      simp
  rw [hd, List.filter_eq_self.mpr]
  intro a ha
  rw [h1 a ha]
  rfl

theorem splitScheme_https (X : Chars) :
    splitScheme ("https".data ++ ':' :: X) = ("https".data, X) := by
  unfold splitScheme
  have hstop := takeWhile_append_stop (fun c => c != ':') "https".data ':' X
    (by decide) (by decide)
  have h5 : "https".data = ['h', 't', 't', 'p', 's'] := rfl
  rw [hstop.1, hstop.2, h5]
  rfl

theorem urlsplit_https_avanza (R : Chars)
    (hu : ∀ x ∈ R, isUnsafeByte x = false) (t : Chars) (hhead : R = '/' :: t) :
    urlsplit ("https://www.avanza.se".data ++ R) [] =
      .ok ⟨"https".data, AVANZA_HOST, (pySplitOnce '?' (pySplitOnce '#' R).1).1,
        (pySplitOnce '?' (pySplitOnce '#' R).1).2, (pySplitOnce '#' R).2⟩ := by
  unfold urlsplit
  dsimp only
  have hpre : preprocessUrl ("https://www.avanza.se".data ++ R) =
      "https://www.avanza.se".data ++ R := by
    apply preprocessUrl_id
    · intro x hx
      rcases List.mem_append.mp hx with hx1 | hx2
      · have hall : ∀ y ∈ "https://www.avanza.se".data, isUnsafeByte y = false := by
          decide
        exact hall x hx1
      · exact hu x hx2
    · intro c hc
      have : ("https://www.avanza.se".data ++ R).head? = some 'h' := rfl
      rw [this] at hc
      injection hc with hc
      rw [← hc]
      rfl
  rw [hpre]
  have hshape : "https://www.avanza.se".data ++ R =
      "https".data ++ ':' :: ("//www.avanza.se".data ++ R) := rfl
  rw [hshape, splitScheme_https]
  dsimp only
  rw [if_neg (by decide : ¬ (("https".data == ([] : Chars)) = true))]
  have htake : List.take 2 ("//www.avanza.se".data ++ R) = ['/', '/'] := rfl
  have hdrop : List.drop 2 ("//www.avanza.se".data ++ R) =
      "www.avanza.se".data ++ R := rfl
  rw [if_pos (by rw [htake]; decide)]
  subst hhead
  have hnet := takeWhile_append_stop notDelim "www.avanza.se".data '/' t
    (by decide) (by decide)
  rw [hdrop, hnet.1, hnet.2]
  rw [if_neg (by decide :
    ¬ ((("www.avanza.se".data.any fun x => x == '[') &&
        !("www.avanza.se".data.any fun x => x == ']') ||
        ("www.avanza.se".data.any fun x => x == ']') &&
        !("www.avanza.se".data.any fun x => x == '[')) = true))]
  rfl

theorem urlsplit_roundtrip (p q t : Chars) (hp : p = '/' :: t)
    (hph : '#' ∉ p) (hpq : '?' ∉ p) (hqh : '#' ∉ q)
    (hpu : ∀ x ∈ p, isUnsafeByte x = false)
    (hqu : ∀ x ∈ q, isUnsafeByte x = false) :
    urlsplit (urlunsplit "https".data AVANZA_HOST p q []) [] =
      .ok ⟨"https".data, AVANZA_HOST, p, q, []⟩ := by
  subst hp
  cases q with
  | nil =>
    have hu : urlunsplit "https".data AVANZA_HOST ('/' :: t) [] [] =
        "https://www.avanza.se".data ++ ('/' :: t) := rfl
    rw [hu]
    rw [urlsplit_https_avanza ('/' :: t) hpu t rfl]
    rw [pySplitOnce_none '#' ('/' :: t) hph]
    rw [pySplitOnce_none '?' ('/' :: t) hpq]
  | cons qc qt =>
    have hu : urlunsplit "https".data AVANZA_HOST ('/' :: t) (qc :: qt) [] =
        "https://www.avanza.se".data ++ ('/' :: (t ++ '?' :: qc :: qt)) := rfl
    rw [hu]
    have hmem : ∀ x ∈ ('/' :: (t ++ '?' :: qc :: qt)), isUnsafeByte x = false := by
      intro x hx
      rcases List.mem_cons.mp hx with rfl | hx1
      · rfl
      · rcases List.mem_append.mp hx1 with hx2 | hx3
        · exact hpu x (List.mem_cons_of_mem _ hx2)
        · rcases List.mem_cons.mp hx3 with rfl | hx4
          · rfl
          · exact hqu x hx4
    rw [urlsplit_https_avanza ('/' :: (t ++ '?' :: qc :: qt)) hmem
      (t ++ '?' :: qc :: qt) rfl]
    have hnoh : '#' ∉ ('/' :: (t ++ '?' :: qc :: qt)) := by
      intro hx
      rcases List.mem_cons.mp hx with heq | hx1
      · exact absurd heq (by decide)
      · rcases List.mem_append.mp hx1 with hx2 | hx3
        · exact hph (List.mem_cons_of_mem _ hx2)
        · rcases List.mem_cons.mp hx3 with heq | hx4
          · exact absurd heq (by decide)
          · exact hqh hx4
    rw [pySplitOnce_none '#' _ hnoh]
    have hshape : ('/' :: (t ++ '?' :: qc :: qt)) =
        ('/' :: t) ++ '?' :: qc :: qt := rfl
    rw [hshape, pySplitOnce_split '?' ('/' :: t) (qc :: qt) hpq]

theorem keepFirsts_subset (l : List Chars) (u : Chars) (h : u ∈ keepFirsts l) :
    u ∈ l := by
  induction l using keepFirsts.induct with
  | case1 => simp [keepFirsts] at h
  | case2 v rest ih =>
    rw [keepFirsts] at h
    rcases List.mem_cons.mp h with rfl | h2
    · exact List.mem_cons_self _ _
    · exact List.mem_cons_of_mem _ (List.mem_of_mem_filter (ih h2))

theorem keepFirsts_nodup (l : List Chars) : (keepFirsts l).Nodup := by
  induction l using keepFirsts.induct with
  | case1 => simp [keepFirsts]
  | case2 v rest ih =>
    rw [keepFirsts]
    refine List.nodup_cons.mpr ⟨?_, ih⟩
    intro hmem
    have := List.mem_filter.mp (keepFirsts_subset _ _ hmem)
    simp at this

theorem dedup_first_occ_eq (l : List Chars) :
    ∀ seen : List Chars,
    dedup_first_occ seen l =
      keepFirsts (l.filter (fun v => !(seen.any (· == v)))) := by
  induction l with
  | nil =>
    intro seen
    simp [dedup_first_occ, keepFirsts]
  | cons u rest ih =>
    intro seen
    unfold dedup_first_occ
    by_cases hin : (seen.any (· == u)) = true
    · rw [if_pos hin]
      rw [List.filter_cons]
      rw [if_neg (by rw [hin]; simp)]
      exact ih seen
    · rw [if_neg hin]
      rw [List.filter_cons]
      rw [if_pos (by rw [Bool.not_eq_true] at hin; rw [hin]; rfl)]
      rw [keepFirsts]
      rw [ih (u :: seen)]
      congr 1
      rw [List.filter_filter]
      congr 1
      apply List.filter_congr
      intro v _
      by_cases hv : v = u
      · subst hv
        simp
      · have h1 : (u == v) = false := beq_eq_false_iff_ne.mpr (Ne.symm hv)
        have h2 : (v == u) = false := beq_eq_false_iff_ne.mpr hv
        simp [List.any_cons, h1, h2]
        exact fun _ => hv

theorem harvest_cleaned_cons (href : Chars) (rest : List Chars) :
    harvest_cleaned (href :: rest) =
      (match urljoin SEED_URL href with
      | .error e => .error e
      | .ok abs_url =>
        match urlsplit abs_url [] with
        | .error e => .error e
        | .ok parts =>
          if parts.scheme != "https".data || parts.netloc != AVANZA_HOST then
            harvest_cleaned rest
          else
            if !(containsSub PATH_SUBSTR parts.path) then harvest_cleaned rest
            else
              match harvest_cleaned rest with
              | .error e => .error e
              | .ok cu =>
                .ok (urlunsplit parts.scheme parts.netloc parts.path
                  parts.query [] :: cu)) := by
  conv_lhs => unfold harvest_cleaned

theorem harvest_cleaned_mem :
    ∀ (hrefs : List Chars) (cu : List Chars), harvest_cleaned hrefs = .ok cu →
    ∀ u ∈ cu, ∃ (abs : Chars) (sp : SplitResult),
      urlsplit abs [] = .ok sp ∧ sp.scheme = "https".data ∧
      sp.netloc = AVANZA_HOST ∧ containsSub PATH_SUBSTR sp.path = true ∧
      u = urlunsplit sp.scheme sp.netloc sp.path sp.query []
  | [], cu, h, u, hu => by
    simp only [harvest_cleaned, Except.ok.injEq] at h
    subst h
    simp at hu
  | href :: rest, cu, h, u, hu => by
    rw [harvest_cleaned_cons] at h
    cases hj : urljoin SEED_URL href with
    | error e =>
      rw [hj] at h
      exact absurd h (by simp)
    | ok abs =>
      rw [hj] at h
      simp only at h
      cases hs : urlsplit abs [] with
      | error e =>
        rw [hs] at h
        exact absurd h (by simp)
      | ok parts =>
        rw [hs] at h
        simp only at h
        by_cases hcond : (parts.scheme != "https".data ||
            parts.netloc != AVANZA_HOST) = true
        · rw [if_pos hcond] at h
          exact harvest_cleaned_mem rest cu h u hu
        · rw [if_neg hcond] at h
          by_cases hmark : (!(containsSub PATH_SUBSTR parts.path)) = true
          · rw [if_pos hmark] at h
            exact harvest_cleaned_mem rest cu h u hu
          · rw [if_neg hmark] at h
            cases hr : harvest_cleaned rest with
            | error e =>
              rw [hr] at h
              exact absurd h (by simp)
            | ok cu' =>
              rw [hr] at h
              simp only [Except.ok.injEq] at h
              subst h
              have hsch : parts.scheme = "https".data ∧
                  parts.netloc = AVANZA_HOST := by
                simp only [Bool.or_eq_true, bne_iff_ne, ne_eq, not_or,
                  not_not] at hcond
                exact hcond
              have hmrk : containsSub PATH_SUBSTR parts.path = true := by
                simpa using hmark
              rcases List.mem_cons.mp hu with rfl | hu'
              · exact ⟨abs, parts, hs, hsch.1, hsch.2, hmrk, rfl⟩
              · exact harvest_cleaned_mem rest cu' hr u hu'

theorem canonical_mem_props (abs : Chars) (sp : SplitResult)
    (hs : urlsplit abs [] = .ok sp) (h1 : sp.scheme = "https".data)
    (h2 : sp.netloc = AVANZA_HOST)
    (h3 : containsSub PATH_SUBSTR sp.path = true) :
    ∃ sp', urlsplit (urlunsplit sp.scheme sp.netloc sp.path sp.query []) [] =
        .ok sp' ∧
      sp'.scheme = "https".data ∧ sp'.netloc = AVANZA_HOST ∧
      containsSub PATH_SUBSTR sp'.path = true ∧ sp'.fragment = [] := by
  obtain ⟨hph, hpq, hqh, hpu, hqu, hhead⟩ := urlsplit_components abs [] sp hs
  have hne : sp.netloc ≠ [] := by
    rw [h2]
    decide
  rcases hhead hne with hnil | ⟨t, ht⟩
  · rw [hnil] at h3
    exact absurd h3 (by decide)
  · refine ⟨⟨"https".data, AVANZA_HOST, sp.path, sp.query, []⟩, ?_, rfl, rfl,
      h3, rfl⟩
    rw [h1, h2]
    exact urlsplit_roundtrip sp.path sp.query t ht hph hpq hqh hpu hqu

/-! ## Claim C3 -/

/-- C3: every URL in a list returned by `harvest_links` has scheme exactly
`https`, host exactly `AVANZA_HOST`, a path containing `PATH_SUBSTR`, and
an empty fragment; the list contains no duplicate strings; and it equals
`keepFirsts` of the canonicalised candidate list, so each URL appears at
the position of the first candidate href that resolves to it — a link
seen once relative and once absolute, resolving to the same canonical
string, appears exactly once. -/
theorem harvest_links_canonical (session : Option Unit)
    (fetchResult : Except PyErr Chars) (soup : Chars → List (Option Chars))
    (urls : List Chars) (att : Bool)
    (h : harvest_links session fetchResult soup = (.ok urls, att)) :
    urls.Nodup ∧
    (∀ u ∈ urls, ∃ sp, urlsplit u [] = .ok sp ∧ sp.scheme = "https".data ∧
      sp.netloc = AVANZA_HOST ∧ containsSub PATH_SUBSTR sp.path = true ∧
      sp.fragment = []) ∧
    (∀ (html : Chars) (cu : List Chars), session = some () →
      fetchResult = .ok html →
      ¬(html = [] ∨ (pyStripChars html).length < 100) →
      harvest_cleaned (candidate_hrefs (soup html)) = .ok cu →
      urls = keepFirsts cu) := by
  unfold harvest_links at h
  cases session with
  | none =>
    simp only [Prod.mk.injEq, Except.ok.injEq] at h
    obtain ⟨h1, _⟩ := h
    subst h1
    exact ⟨List.nodup_nil, by simp, fun _ _ hs => by simp at hs⟩
  | some s =>
    cases fetchResult with
    | error e =>
      simp only [Prod.mk.injEq, Except.ok.injEq] at h
      obtain ⟨h1, _⟩ := h
      subst h1
      exact ⟨List.nodup_nil, by simp, fun _ _ _ hf => by simp at hf⟩
    | ok html =>
      simp only at h
      by_cases hguard : (html == ([] : Chars) ||
          decide ((pyStripChars html).length < 100)) = true
      · rw [if_pos hguard] at h
        simp only [Prod.mk.injEq, Except.ok.injEq] at h
        obtain ⟨h1, _⟩ := h
        subst h1
        refine ⟨List.nodup_nil, by simp, ?_⟩
        intro html' cu _ hf hng _
        exfalso
        apply hng
        simp only [Except.ok.injEq] at hf
        subst hf
        rcases Bool.or_eq_true .. ▸ hguard with hb | hb
        · exact Or.inl (beq_iff_eq.mp hb)
        · exact Or.inr (of_decide_eq_true hb)
      · rw [if_neg hguard] at h
        cases hcc : harvest_cleaned (candidate_hrefs (soup html)) with
        | error e =>
          rw [hcc] at h
          exact absurd h (by simp)
        | ok cu0 =>
          rw [hcc] at h
          simp only [Prod.mk.injEq, Except.ok.injEq] at h
          obtain ⟨h1, _⟩ := h
          subst h1
          have hkf : dedup_first_occ [] cu0 = keepFirsts cu0 := by
            rw [dedup_first_occ_eq cu0 []]
            congr 1
            apply List.filter_eq_self.mpr
            intro a _
            rfl
          refine ⟨?_, ?_, ?_⟩
          · rw [hkf]
            exact keepFirsts_nodup cu0
          · intro u hu
            rw [hkf] at hu
            have hmem := keepFirsts_subset cu0 u hu
            obtain ⟨abs, sp, hs, h1, h2, h3, hequ⟩ :=
              harvest_cleaned_mem (candidate_hrefs (soup html)) cu0 hcc u hmem
            obtain ⟨sp', hsp', hp1, hp2, hp3, hp4⟩ :=
              canonical_mem_props abs sp hs h1 h2 h3
            exact ⟨sp', hequ ▸ hsp', hp1, hp2, hp3, hp4⟩
          · intro html' cu hsess hf _ hcu
            simp only [Except.ok.injEq] at hf
            subst hf
            rw [hcc] at hcu
            simp only [Except.ok.injEq] at hcu
            subst hcu
            exact hkf

/-- Witness for C3: the deduplicated output of the robustness fixture is
duplicate-free. -/
theorem harvest_links_canonical_witness :
    (["https://www.avanza.se/aktier/om-aktien/test-stock".data,
      "https://www.avanza.se/aktier/om-aktien/another-stock".data,
      "https://www.avanza.se/aktier/om-aktien/abs-stock".data,
      "https://www.avanza.se/aktier/om-aktien/frag-stock".data] :
      List Chars).Nodup :=
  (harvest_links_canonical (some ()) (.ok longHtml)
    (fun _ => robustnessAnchors)
    ["https://www.avanza.se/aktier/om-aktien/test-stock".data,
     "https://www.avanza.se/aktier/om-aktien/another-stock".data,
     "https://www.avanza.se/aktier/om-aktien/abs-stock".data,
     "https://www.avanza.se/aktier/om-aktien/frag-stock".data]
    true (by decide)).1
